import Mathlib

set_option linter.unusedSectionVars false

/-!
# Verification of the scraping core against its specification

Shallow embedding of the scraping core of the `scraper` repository:
the deduplicating content store (`src/backend/models/Content.js`), the
run-log state machine (`src/backend/models/ScrapingLog.js`), the fetch
retry engine (`src/backend/scrapers/baseScraper.js`) and the robots cache
(`src/backend/utils/robotsParser.js`).  JavaScript numbers that are used
as timestamps or counters are embedded as `Nat` (durations as `Int`),
Mongo documents as Lean structures, and the Mongo collection as a list of
documents.  Effectful code is embedded as explicit state passing; network
outcomes are inputs to the embedded functions.
-/

namespace Sha256

/-! ## SHA-256 (FIPS 180-4)

`Content.generateHash` calls node's `crypto.createHash('sha256')` and takes
the lowercase hex digest.  We embed the full SHA-256 function over byte
lists, with 32-bit words represented as `Nat` reduced `% 2^32`. -/

def w32 : Nat := 4294967296

def add32 (a b : Nat) : Nat := (a + b) % w32

def rotr32 (n x : Nat) : Nat := ((x >>> n) ||| ((x <<< (32 - n)) % w32)) % w32

def shr32 (n x : Nat) : Nat := x >>> n

def bigS0 (x : Nat) : Nat := (rotr32 2 x) ^^^ (rotr32 13 x) ^^^ (rotr32 22 x)

def bigS1 (x : Nat) : Nat := (rotr32 6 x) ^^^ (rotr32 11 x) ^^^ (rotr32 25 x)

def smallS0 (x : Nat) : Nat := (rotr32 7 x) ^^^ (rotr32 18 x) ^^^ (shr32 3 x)

def smallS1 (x : Nat) : Nat := (rotr32 17 x) ^^^ (rotr32 19 x) ^^^ (shr32 10 x)

def chF (x y z : Nat) : Nat := ((x &&& y) ^^^ ((x ^^^ (w32 - 1)) &&& z)) % w32

def majF (x y z : Nat) : Nat := (x &&& y) ^^^ (x &&& z) ^^^ (y &&& z)

def K : List Nat :=
  [1116352408, 1899447441, 3049323471, 3921009573, 961987163,
   1508970993, 2453635748, 2870763221, 3624381080, 310598401,
   607225278, 1426881987, 1925078388, 2162078206, 2614888103,
   3248222580, 3835390401, 4022224774, 264347078, 604807628,
   770255983, 1249150122, 1555081692, 1996064986, 2554220882,
   2821834349, 2952996808, 3210313671, 3336571891, 3584528711,
   113926993, 338241895, 666307205, 773529912, 1294757372,
   1396182291, 1695183700, 1986661051, 2177026350, 2456956037,
   2730485921, 2820302411, 3259730800, 3345764771, 3516065817,
   3600352804, 4094571909, 275423344, 430227734, 506948616,
   659060556, 883997877, 958139571, 1322822218, 1537002063,
   1747873779, 1955562222, 2024104815, 2227730452, 2361852424,
   2428436474, 2756734187, 3204031479, 3329325298]

def initH : List Nat :=
  [1779033703, 3144134277, 1013904242, 2773480762, 1359893119,
   2600822924, 528734635, 1541459225]

/-- Big-endian bytes of a 64-bit length. -/
def lenBytes (n : Nat) : List Nat :=
  (List.range 8).map fun i => (n >>> (8 * (7 - i))) % 256

/-- Pad a message to a multiple of 64 bytes: `0x80`, zeros, 64-bit bit length. -/
def padMessage (msg : List Nat) : List Nat :=
  let L := msg.length
  let zeros := (119 - L % 64) % 64
  msg ++ [0x80] ++ List.replicate zeros 0 ++ lenBytes (L * 8)

/-- The sixteen big-endian 32-bit words of one 64-byte block. -/
def blockWords (block : List Nat) : List Nat :=
  (List.range 16).map fun i =>
    (block.getD (4 * i) 0) <<< 24 ||| (block.getD (4 * i + 1) 0) <<< 16 |||
    (block.getD (4 * i + 2) 0) <<< 8 ||| block.getD (4 * i + 3) 0

/-- Message schedule: extend sixteen words to sixty-four. -/
def schedule (ws : List Nat) : List Nat :=
  (List.range 48).foldl
    (fun w _ =>
      let t := w.length
      w ++ [add32 (add32 (smallS1 (w.getD (t - 2) 0)) (w.getD (t - 7) 0))
              (add32 (smallS0 (w.getD (t - 15) 0)) (w.getD (t - 16) 0))])
    ws

structure Regs where
  a : Nat
  b : Nat
  c : Nat
  d : Nat
  e : Nat
  f : Nat
  g : Nat
  h : Nat
deriving Repr, DecidableEq

def roundStep (w : List Nat) (r : Regs) (t : Nat) : Regs :=
  let t1 := add32 (add32 (add32 r.h (bigS1 r.e)) (add32 (chF r.e r.f r.g) (K.getD t 0)))
              (w.getD t 0)
  let t2 := add32 (bigS0 r.a) (majF r.a r.b r.c)
  { a := add32 t1 t2, b := r.a, c := r.b, d := r.c,
    e := add32 r.d t1, f := r.e, g := r.f, h := r.g }

def compress (hs : List Nat) (block : List Nat) : List Nat :=
  let w := schedule (blockWords block)
  let r0 : Regs :=
    { a := hs.getD 0 0, b := hs.getD 1 0, c := hs.getD 2 0, d := hs.getD 3 0,
      e := hs.getD 4 0, f := hs.getD 5 0, g := hs.getD 6 0, h := hs.getD 7 0 }
  let r := (List.range 64).foldl (roundStep w) r0
  [add32 (hs.getD 0 0) r.a, add32 (hs.getD 1 0) r.b, add32 (hs.getD 2 0) r.c,
   add32 (hs.getD 3 0) r.d, add32 (hs.getD 4 0) r.e, add32 (hs.getD 5 0) r.f,
   add32 (hs.getD 6 0) r.g, add32 (hs.getD 7 0) r.h]

/-- SHA-256 digest of a byte list, as eight 32-bit words. -/
def sha256Words (msg : List Nat) : List Nat :=
  let padded := padMessage msg
  let nblocks := padded.length / 64
  (List.range nblocks).foldl
    (fun hs i => compress hs ((padded.drop (64 * i)).take 64)) initH

/-- The lowercase hex digit for a value below sixteen. -/
def hexDigit (n : Nat) : Char :=
  Char.ofNat (if n < 10 then 48 + n else 87 + n)

/-- Lowercase hex rendering of a 32-bit word (eight hex digits). -/
def wordHex (x : Nat) : List Char :=
  (List.range 8).map fun i => hexDigit ((x >>> (4 * (7 - i))) % 16)

/-- UTF-8 encoding of one unicode code point. -/
def utf8Char (n : Nat) : List Nat :=
  if n < 0x80 then [n]
  else if n < 0x800 then [0xc0 ||| (n >>> 6), 0x80 ||| (n &&& 0x3f)]
  else if n < 0x10000 then
    [0xe0 ||| (n >>> 12), 0x80 ||| ((n >>> 6) &&& 0x3f), 0x80 ||| (n &&& 0x3f)]
  else
    [0xf0 ||| (n >>> 18), 0x80 ||| ((n >>> 12) &&& 0x3f),
     0x80 ||| ((n >>> 6) &&& 0x3f), 0x80 ||| (n &&& 0x3f)]

/-- UTF-8 bytes of a string. -/
def utf8Bytes (s : String) : List Nat :=
  s.data.flatMap fun c => utf8Char c.toNat

/-- Lowercase hex SHA-256 digest of a string (UTF-8 bytes), as produced by
`crypto.createHash('sha256').update(data).digest('hex')`. -/
def sha256hex (s : String) : String :=
  String.mk ((sha256Words (utf8Bytes s)).flatMap wordHex)

end Sha256

set_option maxRecDepth 10000 in
/-- The FIPS 180-4 test vector for `"abc"`, checking the embedding really
is SHA-256. -/
theorem sha256hex_abc_vector :
    Sha256.sha256hex "abc" =
      "ba7816bf8f01cfea414140de5dae2223b00361a396177a9cb410ff61f20015ad" := by
  decide

set_option maxRecDepth 10000 in
/-- The SHA-256 digest of the empty string. -/
theorem sha256hex_empty_vector :
    Sha256.sha256hex "" =
      "e3b0c44298fc1c149afbf4c8996fb92427ae41e4649b934ca495991b7852b855" := by
  decide

/-! ## JS string primitives

Kernel-computable embeddings of the JS string methods the code uses:
`toLowerCase` (character-wise lowering), `trim` (strip whitespace at both
ends) and `String.prototype.includes` (substring containment). -/

def jsToLower (s : String) : String :=
  ⟨s.data.map Char.toLower⟩

def jsTrim (s : String) : String :=
  ⟨((s.data.dropWhile Char.isWhitespace).reverse.dropWhile Char.isWhitespace).reverse⟩

/-- Whether `pat` is a prefix of `s` (character lists). -/
def leadsWith : List Char → List Char → Bool
  | [], _ => true
  | _ :: _, [] => false
  | p :: ps, c :: cs => p == c && leadsWith ps cs

/-- Whether `pat` occurs as a contiguous run in `s` (character lists). -/
def charsContain (s pat : List Char) : Bool :=
  match s with
  | [] => pat.isEmpty
  | _ :: cs => leadsWith pat s || charsContain cs pat

/-- JS `s.includes(pat)`. -/
def jsIncludes (s pat : String) : Bool :=
  leadsWith pat.data s.data || charsContain s.data pat.data

/-! ## Content store (`src/backend/models/Content.js`)

A Mongo collection of content documents is embedded as a `List` of
documents.  A scraped item supplies `url`, `title` and a payload of
further fields; the payload type is a parameter `α` because the claims do
not depend on its shape (the pipeline section instantiates it).  Fields
the schema manages itself (`contentHash`, `scrapedAt`, `status`,
`lastUpdated`) are explicit; `status` defaults to `active` on insert and
is never part of an upsert's `$set` payload (scraped items carry no
status). -/

inductive CStatus where
  | active
  | archived
  | deleted
  | flagged
deriving Repr, DecidableEq

/-- The data supplied to `bulkUpsert` for one item: the `$set` payload.
`url` and `title` are singled out because `generateHash` reads them. -/
structure ContentInput (α : Type) where
  url : String
  title : String
  payload : α
deriving Repr, DecidableEq

/-- One stored content document (the schema fields the claims touch). -/
structure ContentDoc (α : Type) where
  contentHash : String
  url : String
  title : String
  payload : α
  scrapedAt : Nat
  status : CStatus
  lastUpdated : Nat
deriving Repr, DecidableEq

namespace Content

/-- Embeds `contentSchema.statics.generateHash`:
`sha256hex(url.toLowerCase().trim() + "|" + title.toLowerCase().trim())`. -/
def generateHash (url title : String) : String :=
  Sha256.sha256hex (jsTrim (jsToLower url) ++ "|" ++ jsTrim (jsToLower title))

/-- First stored document with the given content hash (`findOne` /
the `updateOne` filter `{ contentHash: hash }`). -/
def findDoc (store : List (ContentDoc α)) (h : String) : Option (ContentDoc α) :=
  store.find? fun d => d.contentHash == h

/-- Replace the first document matching the hash (Mongo `updateOne`
touches a single document). -/
def updateFirst (h : String) (f : ContentDoc α → ContentDoc α) :
    List (ContentDoc α) → List (ContentDoc α)
  | [] => []
  | d :: ds => if d.contentHash == h then f d :: ds else d :: updateFirst h f ds

/-- Effect of the update's `$set`: all supplied fields plus `contentHash`
and `lastUpdated = now`; `scrapedAt` and `status` are untouched
(`scrapedAt` is `$setOnInsert` only). -/
def applySet [DecidableEq α] (now : Nat) (c : ContentInput α) (h : String)
    (d : ContentDoc α) : ContentDoc α :=
  { d with url := c.url, title := c.title, payload := c.payload,
           contentHash := h, lastUpdated := now }

/-- Document created when the upsert finds no match: the `$set` fields
plus `$setOnInsert { scrapedAt: now }` and the schema defaults. -/
def freshDoc (now : Nat) (c : ContentInput α) (h : String) : ContentDoc α :=
  { contentHash := h, url := c.url, title := c.title, payload := c.payload,
    scrapedAt := now, status := .active, lastUpdated := now }

structure UpsertCounts where
  inserted : Nat
  modified : Nat
deriving Repr, DecidableEq

/-- One `updateOne ... upsert: true` operation of the bulk write.
`modified` counts only documents the `$set` actually changed, matching
Mongo's `modifiedCount`. -/
def upsertOne [DecidableEq α] (now : Nat)
    (st : List (ContentDoc α) × UpsertCounts) (c : ContentInput α) :
    List (ContentDoc α) × UpsertCounts :=
  let h := generateHash c.url c.title
  match findDoc st.1 h with
  | some d =>
      (updateFirst h (applySet now c h) st.1,
       { st.2 with modified := st.2.modified + if applySet now c h d = d then 0 else 1 })
  | none =>
      (st.1 ++ [freshDoc now c h], { st.2 with inserted := st.2.inserted + 1 })

structure UpsertResult where
  inserted : Nat
  modified : Nat
  total : Nat
deriving Repr, DecidableEq

/-- Embeds `contentSchema.statics.bulkUpsert`: fold the per-record upserts over
the batch and report `{ inserted, modified, total }`. -/
def bulkUpsert [DecidableEq α] (now : Nat) (store : List (ContentDoc α))
    (contents : List (ContentInput α)) : List (ContentDoc α) × UpsertResult :=
  let out := contents.foldl (upsertOne now) (store, ⟨0, 0⟩)
  (out.1, { inserted := out.2.inserted, modified := out.2.modified,
            total := contents.length })

/-- Milliseconds per day; `cutoffDate.setDate(getDate() - maxAgeDays)`
moves the clock back `maxAgeDays` days. -/
def msPerDay : Nat := 86400000

/-- The `deleteMany` predicate of `cleanup`:
`scrapedAt < cutoff` and `status ≠ 'flagged'`. -/
def cleanupPred (cutoff : Nat) (d : ContentDoc α) : Bool :=
  decide (d.scrapedAt < cutoff) && !(d.status == .flagged)

/-- Embeds `contentSchema.statics.cleanup`: physically delete matching records,
return the surviving store and `deletedCount`. -/
def cleanup (now maxAgeDays : Nat) (store : List (ContentDoc α)) :
    List (ContentDoc α) × Nat :=
  let cutoff := now - maxAgeDays * msPerDay
  (store.filter fun d => !(cleanupPred cutoff d),
   (store.filter (cleanupPred cutoff)).length)

end Content

/-! ## Run log (`src/backend/models/ScrapingLog.js`)

One run-log document.  Fields not touched by any claim (`performance`,
`config`, `rateLimiting`, `robotsCompliance`, identifiers) are omitted
from the embedding.  Timestamps are `Nat` milliseconds; `duration` is the
JS subtraction `endedAt - startedAt`, an `Int`. -/

inductive LogStatus where
  | pending
  | running
  | completed
  | failed
  | cancelled
  /-- The schema's `'partial'` value. -/
  | partialRun
deriving Repr, DecidableEq

structure LogResults where
  found : Nat
  inserted : Nat
  updated : Nat
  duplicates : Nat
  failed : Nat
  urlsProcessed : Nat
  urlsFailed : Nat
deriving Repr, DecidableEq

/-- One `errorLogs` entry; `etype` embeds the schema field `type`. -/
structure ErrorEntry where
  timestamp : Nat
  etype : String
  message : String
  url : Option String
  retryCount : Nat
deriving Repr, DecidableEq

structure WarningEntry where
  timestamp : Nat
  message : String
  url : Option String
deriving Repr, DecidableEq

structure RunLogDoc where
  status : LogStatus
  startedAt : Nat
  endedAt : Option Nat
  duration : Int
  results : LogResults
  errorLogs : List ErrorEntry
  warnings : List WarningEntry
deriving Repr, DecidableEq

namespace ScrapingLog

def zeroResults : LogResults := ⟨0, 0, 0, 0, 0, 0, 0⟩

/-- Embeds `statics.startSession`: a fresh document in `running`. -/
def startSession (now : Nat) : RunLogDoc :=
  { status := .running, startedAt := now, endedAt := none, duration := 0,
    results := zeroResults, errorLogs := [], warnings := [] }

/-- The `results` argument of `complete`; `none` embeds an `undefined`
field (the code guards each assignment with `!== undefined`). -/
structure CompleteArgs where
  found : Option Nat := none
  inserted : Option Nat := none
  updated : Option Nat := none
  duplicates : Option Nat := none
  failed : Option Nat := none
  urlsProcessed : Option Nat := none
  urlsFailed : Option Nat := none
deriving Repr, DecidableEq

def mergeResults (r : LogResults) (u : CompleteArgs) : LogResults :=
  { found := u.found.getD r.found, inserted := u.inserted.getD r.inserted,
    updated := u.updated.getD r.updated, duplicates := u.duplicates.getD r.duplicates,
    failed := u.failed.getD r.failed, urlsProcessed := u.urlsProcessed.getD r.urlsProcessed,
    urlsFailed := u.urlsFailed.getD r.urlsFailed }

/-- Embeds `methods.complete`: unconditionally sets `status = 'completed'`,
`endedAt = now`, `duration = endedAt - startedAt` and merges the supplied
results.  There is no guard on the current status. -/
def complete (results : CompleteArgs) (now : Nat) (log : RunLogDoc) : RunLogDoc :=
  { log with status := .completed, endedAt := some now,
             duration := (now : Int) - (log.startedAt : Int),
             results := mergeResults log.results results }

/-- Embeds `methods.fail`: unconditionally sets `status = 'failed'`, stamps the
end time and appends the error. -/
def fail (ename emsg : String) (now : Nat) (log : RunLogDoc) : RunLogDoc :=
  { log with status := .failed, endedAt := some now,
             duration := (now : Int) - (log.startedAt : Int),
             errorLogs := log.errorLogs ++
               [{ timestamp := now, etype := ename, message := emsg,
                  url := none, retryCount := 0 }] }

/-- Embeds `methods.cancel`: unconditionally sets `status = 'cancelled'` and
stamps the end time. -/
def cancel (now : Nat) (log : RunLogDoc) : RunLogDoc :=
  { log with status := .cancelled, endedAt := some now,
             duration := (now : Int) - (log.startedAt : Int) }

/-- Embeds `methods.addError`: append-only. -/
def addError (e : ErrorEntry) (log : RunLogDoc) : RunLogDoc :=
  { log with errorLogs := log.errorLogs ++ [e] }

/-- Embeds `methods.addWarning`: append-only. -/
def addWarning (w : WarningEntry) (log : RunLogDoc) : RunLogDoc :=
  { log with warnings := log.warnings ++ [w] }

end ScrapingLog

/-! ## Environment parsing (`parseInt(env) || default`)

`baseScraper.js` reads `MAX_RETRIES` and `MAX_ITEMS_PER_CATEGORY` with the
JS idiom `parseInt(x, 10) || default`, where both `NaN` (unset or
unparsable) and `0` are falsy and fall back to the default. -/

/-- Computes `v || d` on a JS number that is `NaN` (`none`) or a parsed `Nat`. -/
def jsOrNat (v : Option Nat) (d : Nat) : Nat :=
  match v with
  | some n => if n = 0 then d else n
  | none => d

/-- Computes `parseInt(s, 10)` on the strings these env vars hold: the value of
the leading run of decimal digits, `NaN` (`none`) when there is none. -/
def parseIntJs (s : String) : Option Nat :=
  let ds := s.data.takeWhile (·.isDigit)
  if ds.isEmpty then none
  else some (ds.foldl (fun n c => n * 10 + (c.toNat - 48)) 0)

/-- Embeds `parseInt(process.env.MAX_RETRIES, 10) || 3`. -/
def maxRetriesConfig (env : Option String) : Nat :=
  jsOrNat (env.bind parseIntJs) 3

/-- Embeds `parseInt(process.env.MAX_ITEMS_PER_CATEGORY, 10) || 500`. -/
def maxItemsConfig (env : Option String) : Nat :=
  jsOrNat (env.bind parseIntJs) 500

/-! ## Fetch retry engine (`BaseScraper.request`)

The per-URL retry loop.  Network outcomes are an input (`outcome i` is
what attempt number `i` produces), the robots decision is an input `Bool`
(the cache makes it stable for the duration of one call), and the jitter
drawn by `Math.random() * 500` at failure number `i` is the input
`jitter i` (in whole milliseconds).  The scraper's mutable sets and maps
(`retryAttempts`, `processedUrls`, `failedUrls`) and the run log are
explicit state; backoff sleeps are recorded in `sleeps`. -/

/-- What one network attempt produces: a body, or a failure (timeout,
network error, or a status outside `[200, 400)`) carrying `error.name`
and `error.message`. -/
inductive FetchOutcome where
  | ok (body : String)
  | failure (ename msg : String)
deriving Repr, DecidableEq

/-- How one `request` call ends. -/
inductive ReqResult where
  /-- The body was returned. -/
  | body (html : String)
  /-- `attempts ≥ maxRetries` at loop entry: the `while` never runs and
  the function returns `undefined`. -/
  | fallthrough
  /-- The `APIError('Robots disallowed', 403, 'ROBOTS_DISALLOWED')`
  rethrown by the catch block. -/
  | robotsDisallowed (url : String)
  /-- The final `ScrapingError`; its message carries the URL, the retry
  budget and the last error's message, and its `source` is the URL. -/
  | fetchFailed (url lastMsg : String) (attempts : Nat)
deriving Repr, DecidableEq

def mapGetD (m : List (String × Nat)) (k : String) (d : Nat) : Nat :=
  match m.find? (fun p => p.1 == k) with
  | some p => p.2
  | none => d

def mapSet (m : List (String × Nat)) (k : String) (v : Nat) : List (String × Nat) :=
  if m.any (fun p => p.1 == k) then
    m.map fun p => if p.1 == k then (k, v) else p
  else m ++ [(k, v)]

def mapDelete (m : List (String × Nat)) (k : String) : List (String × Nat) :=
  m.filter fun p => !(p.1 == k)

def addToSet (s : List String) (x : String) : List String :=
  if s.contains x then s else s ++ [x]

structure ReqState where
  retryAttempts : List (String × Nat)
  processedUrls : List String
  failedUrls : List String
  log : RunLogDoc
  sleeps : List Nat
deriving Repr, DecidableEq

/-- The backoff sleep: `Math.pow(2, attempts) * 1000 + Math.random() * 500`.
No cap is applied in the code. -/
def backoffMs (attempts jitterv : Nat) : Nat :=
  2 ^ attempts * 1000 + jitterv

namespace BaseScraper

/-- The body of `request`'s `while (attempts < maxRetries)` loop.  The
loop variant `maxRetries - attempts` is the structural `fuel` argument:
`fuel = maxRetries - attempts` throughout, so `fuel = 0` is exactly the
loop condition `attempts < maxRetries` failing. -/
def requestGo (url : String) (maxRetries : Nat) (robotsAllowed : Bool)
    (outcome : Nat → FetchOutcome) (jitter : Nat → Nat) (now : Nat) :
    Nat → ReqState → Nat → ReqResult × ReqState
  | 0, st, _ => (.fallthrough, st)
  | fuel + 1, st, attempts =>
    if !robotsAllowed then
      -- addWarning, throw APIError; catch: attempts++, map set, robots
      -- branch: failedUrls.add, rethrow (no addError, no sleep).
      let a := attempts + 1
      (.robotsDisallowed url,
       { st with
           log := ScrapingLog.addWarning
             ⟨now, "Robots blocked URL (skipped)", some url⟩ st.log,
           retryAttempts := mapSet st.retryAttempts url a,
           failedUrls := addToSet st.failedUrls url })
    else
      match outcome attempts with
      | .ok body =>
          (.body body,
           { st with processedUrls := addToSet st.processedUrls url,
                     retryAttempts := mapDelete st.retryAttempts url })
      | .failure ename msg =>
          let a := attempts + 1
          let ename := if ename = "" then "RequestError" else ename
          let st :=
            { st with
                retryAttempts := mapSet st.retryAttempts url a,
                log := ScrapingLog.addError
                  ⟨now, ename, msg, some url, a⟩ st.log }
          if a ≥ maxRetries then
            (.fetchFailed url msg maxRetries,
             { st with failedUrls := addToSet st.failedUrls url })
          else
            requestGo url maxRetries robotsAllowed outcome jitter now fuel
              { st with sleeps := st.sleeps ++ [backoffMs a (jitter a)] } a

/-- Embeds `BaseScraper.request`: the loop starts from the attempt count the
`retryAttempts` map remembers for this URL. -/
def request (url : String) (maxRetries : Nat) (robotsAllowed : Bool)
    (outcome : Nat → FetchOutcome) (jitter : Nat → Nat) (now : Nat)
    (st : ReqState) : ReqResult × ReqState :=
  requestGo url maxRetries robotsAllowed outcome jitter now
    (maxRetries - mapGetD st.retryAttempts url 0) st
    (mapGetD st.retryAttempts url 0)

end BaseScraper

/-! ## Robots cache (`src/backend/utils/robotsParser.js`)

URLs are embedded as origin plus the remainder, so `getCacheKey`
(`new URL(url).origin`) is the `origin` field.  The `robots-parser`
library is external to the repository; its parse result is embedded as a
function `url → userAgent → Bool`, supplied as a parameter `parse`.
Network outcomes of the `robots.txt` request are an input. -/

structure UrlRef where
  origin : String
  pathQuery : String
deriving Repr, DecidableEq

def UrlRef.full (u : UrlRef) : String := u.origin ++ u.pathQuery

/-- Result of the `axios.get` on `<origin>/robots.txt`
(`validateStatus: status < 500`, so statuses below 500 arrive as `ok`). -/
inductive RobotsFetchOutcome where
  | ok (status : Nat) (body : String)
  | err (msg : String)

/-- One cached entry; `found` embeds the `exists` flag and `parserFn` the
`parser` field (`none` = `null`). -/
structure RobotsEntry where
  origin : String
  parserFn : Option (String → String → Bool)
  content : Option String
  fetchedAt : Nat
  found : Bool
  errMsg : Option String

structure RobotsStats where
  hits : Nat
  misses : Nat
  fetchErrors : Nat
  urlsChecked : Nat
deriving Repr, DecidableEq

structure RobotsCacheState where
  cache : List (String × RobotsEntry)
  ttl : Nat
  maxSize : Nat
  userAgent : String
  stats : RobotsStats

def entriesGet {β : Type} (m : List (String × β)) (k : String) : Option β :=
  match m.find? (fun p => p.1 == k) with
  | some p => some p.2
  | none => none

def entriesSet {β : Type} (m : List (String × β)) (k : String) (v : β) :
    List (String × β) :=
  if m.any (fun p => p.1 == k) then
    m.map fun p => if p.1 == k then (k, v) else p
  else m ++ [(k, v)]

def entriesDelete {β : Type} (m : List (String × β)) (k : String) :
    List (String × β) :=
  m.filter fun p => !(p.1 == k)

namespace RobotsCache

/-- Embeds `RobotsCache.fetch`: a 200 parses the body; any other non-5xx status
is "no robots.txt"; a thrown error increments `fetchErrors` and returns a
permissive entry. -/
def fetchEntry (parse : String → String → (String → String → Bool)) (now : Nat)
    (outcome : RobotsFetchOutcome) (u : UrlRef) (st : RobotsCacheState) :
    RobotsEntry × RobotsCacheState :=
  let origin := u.origin
  let robotsUrl := origin ++ "/robots.txt"
  match outcome with
  | .ok status body =>
      if status == 200 then
        ({ origin := origin, parserFn := some (parse robotsUrl body),
           content := some body, fetchedAt := now, found := true, errMsg := none }, st)
      else
        ({ origin := origin, parserFn := none, content := none,
           fetchedAt := now, found := false, errMsg := none }, st)
  | .err msg =>
      ({ origin := origin, parserFn := none, content := none,
         fetchedAt := now, found := false, errMsg := some msg },
       { st with stats := { st.stats with fetchErrors := st.stats.fetchErrors + 1 } })

/-- The miss path of `RobotsCache.get`: count the miss, evict the oldest
entry at capacity, fetch, store. -/
def getMiss (parse : String → String → (String → String → Bool)) (now : Nat)
    (outcome : RobotsFetchOutcome) (u : UrlRef) (st : RobotsCacheState) :
    RobotsEntry × RobotsCacheState :=
  let st := { st with stats := { st.stats with misses := st.stats.misses + 1 } }
  let st := if st.cache.length ≥ st.maxSize then { st with cache := st.cache.drop 1 } else st
  let out := fetchEntry parse now outcome u st
  (out.1, { out.2 with cache := entriesSet out.2.cache u.origin out.1 })

/-- Embeds `RobotsCache.get`: fresh cached entries are hits; expired entries are
deleted and refetched. -/
def get (parse : String → String → (String → String → Bool)) (now : Nat)
    (outcome : RobotsFetchOutcome) (u : UrlRef) (st : RobotsCacheState) :
    RobotsEntry × RobotsCacheState :=
  match entriesGet st.cache u.origin with
  | some e =>
      if now - e.fetchedAt < st.ttl then
        (e, { st with stats := { st.stats with hits := st.stats.hits + 1 } })
      else
        getMiss parse now outcome u { st with cache := entriesDelete st.cache u.origin }
  | none => getMiss parse now outcome u st

/-- Embeds `RobotsCache.isAllowed`: allow when there is no robots.txt or no
parsed ruleset; otherwise ask the ruleset. -/
def isAllowed (parse : String → String → (String → String → Bool)) (now : Nat)
    (outcome : RobotsFetchOutcome) (u : UrlRef) (ua : Option String)
    (st : RobotsCacheState) : Bool × RobotsCacheState :=
  let st := { st with stats := { st.stats with urlsChecked := st.stats.urlsChecked + 1 } }
  let out := get parse now outcome u st
  let robots := out.1
  if !robots.found then (true, out.2)
  else
    match robots.parserFn with
    | none => (true, out.2)
    | some p => (p u.full (ua.getD out.2.userAgent), out.2)

end RobotsCache

/-! ## Adapter pipeline (`BaseScraper.addItem`, `_processAndSaveItems`,
`run` lines 134-147)

Candidate items carry the fields `addItem` reads; a JS `undefined` string
field is embedded as `""` (both are falsy).  `itype` embeds the field
`type`. -/

structure Item where
  title : String
  url : String
  description : String
  tags : List String
  keywords : List String
  source : String
  sourceName : String
  itype : String
  scrapedBy : String
deriving Repr, DecidableEq

/-- The scraper config fields the claims touch. -/
structure ScrapeConfig where
  maxItems : Nat
  keywords : List String
deriving Repr, DecidableEq

/-- Embeds `SEARCH_KEYWORDS` parsing: split on commas, trim, lowercase, drop
empties; default `['webmethods']`. -/
def searchKeywords (env : Option String) : List String :=
  match env with
  | some s => ((s.splitOn ",").map fun k => jsToLower (jsTrim k)).filter (· ≠ "")
  | none => ["webmethods"]

namespace BaseScraper

/-- The lowercased corpus `addItem` searches:
`[title, description, ...tags, ...keywords, source, sourceName]`,
empties dropped, joined by spaces. -/
def corpus (item : Item) : String :=
  jsToLower (String.intercalate " "
    (([item.title, item.description] ++ item.tags ++ item.keywords ++
      [item.source, item.sourceName]).filter (· ≠ "")))

/-- Embeds `this.config.keywords.some(k => text.includes(k))`. -/
def isRelevant (keywords : List String) (item : Item) : Bool :=
  keywords.any fun k => jsIncludes (corpus item) k

/-- Embeds `BaseScraper.addItem`: drop items missing a title or URL, drop
irrelevant items, default `type`/`sourceName`, stamp `scrapedBy`, and
push onto `scrapedItems`. -/
def addItem (cfg : ScrapeConfig) (scraperName stype sourceName : String)
    (acc : List Item) (item : Item) : List Item :=
  if item.title == "" || item.url == "" then acc
  else if !(isRelevant cfg.keywords item) then acc
  else
    acc ++ [{ item with
                itype := if item.itype == "" then stype else item.itype,
                sourceName := if item.sourceName == "" then sourceName else item.sourceName,
                scrapedBy := scraperName }]

/-- The full scraped item is the upsert's `$set` payload. -/
def itemInput (it : Item) : ContentInput Item :=
  { url := it.url, title := it.title, payload := it }

structure SaveResult where
  inserted : Nat
  modified : Nat
  total : Nat
  failed : Nat
deriving Repr, DecidableEq

/-- Embeds `_processAndSaveItems`: empty batches short-circuit; otherwise the
first `config.maxItems` items go to `Content.bulkUpsert`. -/
def processAndSaveItems (cfg : ScrapeConfig) (now : Nat)
    (store : List (ContentDoc Item)) (items : List Item) :
    List (ContentDoc Item) × SaveResult :=
  if items.isEmpty then (store, ⟨0, 0, 0, 0⟩)
  else
    let limited := items.take cfg.maxItems
    let out := Content.bulkUpsert now store (limited.map itemInput)
    (out.1, { inserted := out.2.inserted, modified := out.2.modified,
              total := out.2.total, failed := 0 })

/-- Embeds `run` lines 134-145 after `scrapeSource` returned: collect the
candidates through `addItem`, persist, and close the log with
`complete`. -/
def runPipeline (cfg : ScrapeConfig) (scraperName stype sourceName : String)
    (candidates : List Item) (urlsProcessed urlsFailed : Nat) (now : Nat)
    (store : List (ContentDoc Item)) (log : RunLogDoc) :
    List (ContentDoc Item) × RunLogDoc :=
  let items := candidates.foldl (addItem cfg scraperName stype sourceName) []
  let out := processAndSaveItems cfg now store items
  let saved := out.2
  (out.1,
   ScrapingLog.complete
     { found := some items.length, inserted := some saved.inserted,
       updated := some saved.modified,
       duplicates := some (saved.total - saved.inserted - saved.modified),
       failed := some saved.failed, urlsProcessed := some urlsProcessed,
       urlsFailed := some urlsFailed } now log)

end BaseScraper

/-! ## Store lemmas

Infrastructure about `bulkUpsert`'s fold: content hashes of the store,
`findDoc` against `updateFirst` and append, and the per-hash last-writer
characterization of a bulk upsert. -/

namespace Content

variable {α : Type} [DecidableEq α]

/-- The hash `bulkUpsert` computes for one input. -/
def inputHash (c : ContentInput α) : String :=
  generateHash c.url c.title

def hashesOf (l : List (ContentDoc α)) : List String :=
  l.map (·.contentHash)

/-- All fields except `lastUpdated` agree. -/
def eqMod (d e : ContentDoc α) : Prop :=
  d.contentHash = e.contentHash ∧ d.url = e.url ∧ d.title = e.title ∧
  d.payload = e.payload ∧ d.scrapedAt = e.scrapedAt ∧ d.status = e.status

theorem eqMod_refl (d : ContentDoc α) : eqMod d d :=
  ⟨rfl, rfl, rfl, rfl, rfl, rfl⟩

/-- Some input in `B` hashes to `h`. -/
def HasWriter (B : List (ContentInput α)) (h : String) : Prop :=
  ∃ c ∈ B, inputHash c = h

/-- The last input in `B` hashing to `h` (the last writer). -/
def lastWith (h : String) (B : List (ContentInput α)) : Option (ContentInput α) :=
  (B.filter fun c => inputHash c == h).getLast?

theorem applySet_contentHash (now : Nat) (c : ContentInput α) (h : String)
    (d : ContentDoc α) : (applySet now c h d).contentHash = h := rfl

theorem hashesOf_updateFirst (h : String) (f : ContentDoc α → ContentDoc α)
    (hf : ∀ e, e.contentHash = h → (f e).contentHash = h) (l : List (ContentDoc α)) :
    hashesOf (updateFirst h f l) = hashesOf l := by
  induction l with
  | nil => rfl
  | cons d ds ih =>
    by_cases hd : d.contentHash = h
    · simp [updateFirst, hashesOf, hd, hf d hd]
    · simp only [updateFirst, beq_iff_eq, hd, if_false]
      simpa [hashesOf] using ih

theorem findDoc_cons (d : ContentDoc α) (ds : List (ContentDoc α)) (h : String) :
    findDoc (d :: ds) h = if d.contentHash = h then some d else findDoc ds h := by
  by_cases hd : d.contentHash = h
  · rw [findDoc, List.find?_cons_of_pos _ (by simp [hd]), if_pos hd]
  · rw [findDoc, List.find?_cons_of_neg _ (by simp [hd]), if_neg hd]; rfl

theorem findDoc_isSome_iff (l : List (ContentDoc α)) (h : String) :
    (findDoc l h).isSome ↔ h ∈ hashesOf l := by
  induction l with
  | nil => simp [findDoc, hashesOf]
  | cons d ds ih =>
    rw [findDoc_cons]
    by_cases hd : d.contentHash = h
    · simp [hashesOf, hd]
    · simp [hashesOf, hd, Ne.symm hd, ih]

theorem findDoc_eq_none_iff (l : List (ContentDoc α)) (h : String) :
    findDoc l h = none ↔ h ∉ hashesOf l := by
  rw [← findDoc_isSome_iff]
  cases findDoc l h <;> simp

/-- Lemma: `upsertOne` leaves the stored hashes unchanged, except that a miss
appends the input's hash. -/
theorem hashesOf_upsertOne (now : Nat) (st : List (ContentDoc α) × UpsertCounts)
    (c : ContentInput α) :
    hashesOf (upsertOne now st c).1 =
      hashesOf st.1 ++
        (if (findDoc st.1 (inputHash c)).isSome then [] else [inputHash c]) := by
  simp only [inputHash]
  unfold upsertOne
  cases hfd : findDoc st.1 (generateHash c.url c.title) with
  | some d =>
    simp only [hfd, Option.isSome_some, if_true, List.append_nil]
    exact hashesOf_updateFirst _ _ (fun e _ => applySet_contentHash now c _ e) st.1
  | none =>
    simp [hfd, hashesOf, freshDoc]

theorem mem_hashesOf_upsertOne (now : Nat) (st : List (ContentDoc α) × UpsertCounts)
    (c : ContentInput α) (h : String) (hmem : h ∈ hashesOf st.1) :
    h ∈ hashesOf (upsertOne now st c).1 := by
  rw [hashesOf_upsertOne]
  exact List.mem_append_left _ hmem

theorem self_mem_hashesOf_upsertOne (now : Nat)
    (st : List (ContentDoc α) × UpsertCounts) (c : ContentInput α) :
    inputHash c ∈ hashesOf (upsertOne now st c).1 := by
  rw [hashesOf_upsertOne]
  by_cases hs : (findDoc st.1 (inputHash c)).isSome
  · exact List.mem_append_left _ ((findDoc_isSome_iff _ _).mp hs)
  · simp [hs]

theorem nodup_hashesOf_upsertOne (now : Nat)
    (st : List (ContentDoc α) × UpsertCounts) (c : ContentInput α)
    (hnd : (hashesOf st.1).Nodup) : (hashesOf (upsertOne now st c).1).Nodup := by
  rw [hashesOf_upsertOne]
  by_cases hs : (findDoc st.1 (inputHash c)).isSome
  · simpa [hs] using hnd
  · have : inputHash c ∉ hashesOf st.1 := by
      intro hmem
      exact hs ((findDoc_isSome_iff _ _).mpr hmem)
    simp only [hs, if_false]
    simpa [List.nodup_append] using ⟨hnd, this⟩

/-- The store grown by a bulk-upsert fold keeps every hash it had. -/
theorem mem_hashesOf_fold (now : Nat) (B : List (ContentInput α)) :
    ∀ (st : List (ContentDoc α) × UpsertCounts) (h : String),
      h ∈ hashesOf st.1 → h ∈ hashesOf (B.foldl (upsertOne now) st).1 := by
  induction B with
  | nil => intro st h hmem; exact hmem
  | cons c cs ih =>
    intro st h hmem
    exact ih _ h (mem_hashesOf_upsertOne now st c h hmem)

/-- Every batch hash is present after the fold. -/
theorem batch_mem_hashesOf_fold (now : Nat) (B : List (ContentInput α)) :
    ∀ (st : List (ContentDoc α) × UpsertCounts) (c : ContentInput α), c ∈ B →
      inputHash c ∈ hashesOf (B.foldl (upsertOne now) st).1 := by
  induction B with
  | nil => intro st c hc; cases hc
  | cons c' cs ih =>
    intro st c hc
    rcases List.mem_cons.mp hc with rfl | hc
    · exact mem_hashesOf_fold now cs _ _ (self_mem_hashesOf_upsertOne now st c)
    · exact ih _ c hc

theorem nodup_hashesOf_fold (now : Nat) (B : List (ContentInput α)) :
    ∀ (st : List (ContentDoc α) × UpsertCounts),
      (hashesOf st.1).Nodup → (hashesOf (B.foldl (upsertOne now) st).1).Nodup := by
  induction B with
  | nil => intro st hnd; exact hnd
  | cons c cs ih =>
    intro st hnd
    exact ih _ (nodup_hashesOf_upsertOne now st c hnd)

/-- When every hash of the batch is already stored, the fold inserts
nothing. -/
theorem inserted_fold_of_present (now : Nat) (B : List (ContentInput α)) :
    ∀ (st : List (ContentDoc α) × UpsertCounts),
      (∀ c ∈ B, inputHash c ∈ hashesOf st.1) →
      (B.foldl (upsertOne now) st).2.inserted = st.2.inserted := by
  induction B with
  | nil => intro st _; rfl
  | cons c cs ih =>
    intro st hall
    have hc : inputHash c ∈ hashesOf st.1 := hall c (List.mem_cons_self c cs)
    have hsome : (findDoc st.1 (inputHash c)).isSome := (findDoc_isSome_iff _ _).mpr hc
    rw [List.foldl_cons]
    rw [ih _ (fun c' hc' => mem_hashesOf_upsertOne now st c _ (hall c' (List.mem_cons_of_mem _ hc')))]
    unfold upsertOne
    cases hfd : findDoc st.1 (inputHash c) with
    | some d => simp only [inputHash] at hfd; simp [hfd]
    | none => rw [hfd] at hsome; simp at hsome

theorem findDoc_updateFirst_self (h : String) (f : ContentDoc α → ContentDoc α)
    (hf : ∀ e, e.contentHash = h → (f e).contentHash = h) (l : List (ContentDoc α)) :
    findDoc (updateFirst h f l) h = (findDoc l h).map f := by
  induction l with
  | nil => rfl
  | cons d ds ih =>
    by_cases hd : d.contentHash = h
    · rw [updateFirst, if_pos (by simp [hd]), findDoc_cons, if_pos (hf d hd),
        findDoc_cons, if_pos hd]
      rfl
    · rw [updateFirst, if_neg (by simp [hd]), findDoc_cons, if_neg hd,
        findDoc_cons, if_neg hd, ih]

theorem findDoc_updateFirst_ne (h' h : String) (hne : h' ≠ h)
    (f : ContentDoc α → ContentDoc α)
    (hf : ∀ e, e.contentHash = h' → (f e).contentHash = h') (l : List (ContentDoc α)) :
    findDoc (updateFirst h' f l) h = findDoc l h := by
  induction l with
  | nil => rfl
  | cons d ds ih =>
    by_cases hd : d.contentHash = h'
    · rw [updateFirst, if_pos (by simp [hd]), findDoc_cons,
        if_neg (by rw [hf d hd]; exact hne), findDoc_cons, if_neg (hd ▸ hne)]
    · rw [updateFirst, if_neg (by simp [hd]), findDoc_cons, findDoc_cons, ih]

theorem findDoc_append_single (l : List (ContentDoc α)) (x : ContentDoc α) (h : String) :
    findDoc (l ++ [x]) h =
      match findDoc l h with
      | some d => some d
      | none => if x.contentHash = h then some x else none := by
  induction l with
  | nil => simp [findDoc_cons, findDoc]
  | cons d ds ih =>
    by_cases hd : d.contentHash = h
    · rw [List.cons_append, findDoc_cons, if_pos hd, findDoc_cons, if_pos hd]
    · rw [List.cons_append, findDoc_cons, if_neg hd, findDoc_cons, if_neg hd, ih]

/-- Looking up another hash is unaffected by one upsert. -/
theorem findDoc_upsertOne_ne (now : Nat) (st : List (ContentDoc α) × UpsertCounts)
    (c : ContentInput α) (h : String) (hne : inputHash c ≠ h) :
    findDoc (upsertOne now st c).1 h = findDoc st.1 h := by
  unfold upsertOne
  cases hfd : findDoc st.1 (inputHash c) with
  | some d =>
    simp only [inputHash] at hfd hne ⊢
    simp only [hfd]
    exact findDoc_updateFirst_ne _ _ hne _ (fun e _ => rfl) st.1
  | none =>
    simp only [inputHash] at hfd hne ⊢
    simp only [hfd, findDoc_append_single]
    cases hg : findDoc st.1 h with
    | some d => rfl
    | none => simp [freshDoc, hne]

/-- Looking up the upserted hash yields the written document: the `$set`
image of the matched document, or the fresh document. -/
theorem findDoc_upsertOne_self (now : Nat) (st : List (ContentDoc α) × UpsertCounts)
    (c : ContentInput α) :
    findDoc (upsertOne now st c).1 (inputHash c) =
      some (match findDoc st.1 (inputHash c) with
            | some d => applySet now c (inputHash c) d
            | none => freshDoc now c (inputHash c)) := by
  unfold upsertOne
  cases hfd : findDoc st.1 (inputHash c) with
  | some d =>
    simp only [inputHash] at hfd ⊢
    simp only [hfd]
    rw [findDoc_updateFirst_self _ _ (fun e _ => applySet_contentHash now c _ e) st.1,
      hfd]
    rfl
  | none =>
    simp only [inputHash] at hfd ⊢
    simp only [hfd, findDoc_append_single, hfd]
    simp [freshDoc]

/-- A hash no input of the batch writes is untouched by the fold. -/
theorem findDoc_fold_noWriter (now : Nat) (B : List (ContentInput α)) (h : String)
    (hw : ¬HasWriter B h) :
    ∀ (st : List (ContentDoc α) × UpsertCounts),
      findDoc (B.foldl (upsertOne now) st).1 h = findDoc st.1 h := by
  induction B with
  | nil => intro st; rfl
  | cons c cs ih =>
    intro st
    have hcne : inputHash c ≠ h := fun hc => hw ⟨c, List.mem_cons_self c cs, hc⟩
    have hcs : ¬HasWriter cs h := fun ⟨c', hc', he⟩ =>
      hw ⟨c', List.mem_cons_of_mem _ hc', he⟩
    rw [List.foldl_cons, ih hcs, findDoc_upsertOne_ne now st c h hcne]

theorem lastWith_hash_mem (h : String) (B : List (ContentInput α))
    (c₀ : ContentInput α) (hl : lastWith h B = some c₀) :
    inputHash c₀ = h ∧ c₀ ∈ B := by
  have hx : c₀ ∈ (B.filter (fun c => inputHash c == h)).getLast? := hl
  rcases List.mem_getLast?_eq_getLast hx with ⟨hne, heq⟩
  have hmem : c₀ ∈ B.filter (fun c => inputHash c == h) := by
    rw [heq]; exact List.getLast_mem hne
  have := List.mem_filter.mp hmem
  exact ⟨by simpa using this.2, this.1⟩

theorem hasWriter_iff_filter_ne_nil (h : String) (B : List (ContentInput α)) :
    HasWriter B h ↔ B.filter (fun c => inputHash c == h) ≠ [] := by
  constructor
  · rintro ⟨c, hc, he⟩ hnil
    exact (List.filter_eq_nil_iff.mp hnil c hc) (by simp [he])
  · intro hne
    rcases List.exists_mem_of_ne_nil _ hne with ⟨c, hc⟩
    have := List.mem_filter.mp hc
    exact ⟨c, this.1, by simpa using this.2⟩

theorem lastWith_cons_of_writer (h : String) (c : ContentInput α)
    (cs : List (ContentInput α)) (hw : HasWriter cs h) :
    lastWith h (c :: cs) = lastWith h cs := by
  have hne := (hasWriter_iff_filter_ne_nil h cs).mp hw
  unfold lastWith
  rw [List.filter_cons]
  cases hx : cs.filter (fun c' => inputHash c' == h) with
  | nil => exact absurd hx hne
  | cons x xs =>
    by_cases hc : inputHash c = h
    · simp [hc, hx, List.getLast?_cons_cons]
    · simp [hc, hx]

theorem lastWith_cons_of_noWriter (h : String) (c : ContentInput α)
    (cs : List (ContentInput α)) (hw : ¬HasWriter cs h) :
    lastWith h (c :: cs) = if inputHash c = h then some c else none := by
  have hnil : cs.filter (fun c' => inputHash c' == h) = [] := by
    by_contra hne
    exact hw ((hasWriter_iff_filter_ne_nil h cs).mpr hne)
  unfold lastWith
  rw [List.filter_cons, hnil]
  by_cases hc : inputHash c = h <;> simp [hc]

/-- Per-hash last-writer characterization of the bulk-upsert fold: the
stored document under hash `h` carries the fields of the last batch input
hashing to `h`, with `lastUpdated = now` and some pre-existing or fresh
`scrapedAt`/`status`. -/
theorem findDoc_fold_lastWith (now : Nat) (B : List (ContentInput α)) :
    ∀ (st : List (ContentDoc α) × UpsertCounts) (h : String) (c₀ : ContentInput α),
      lastWith h B = some c₀ →
      ∃ scr stt, findDoc (B.foldl (upsertOne now) st).1 h =
        some ⟨h, c₀.url, c₀.title, c₀.payload, scr, stt, now⟩ := by
  induction B with
  | nil => intro st h c₀ hl; simp [lastWith] at hl
  | cons c cs ih =>
    intro st h c₀ hl
    by_cases hw : HasWriter cs h
    · rw [lastWith_cons_of_writer h c cs hw] at hl
      exact ih _ h c₀ hl
    · rw [lastWith_cons_of_noWriter h c cs hw] at hl
      by_cases hc : inputHash c = h
      · rw [if_pos hc] at hl
        injection hl with hl
        subst hl
        rw [List.foldl_cons, findDoc_fold_noWriter now cs h hw, ← hc,
          findDoc_upsertOne_self now st c]
        cases hfd : findDoc st.1 (inputHash c) with
        | some d => exact ⟨d.scrapedAt, d.status, by cases d; simp [applySet]⟩
        | none => exact ⟨now, .active, by simp [freshDoc]⟩
      · rw [if_neg hc] at hl; cases hl

/-- Relation between the in-progress replay store and the first pass's
final store: each position is either already settled (`eqMod`) or still
awaits its last writer among the remaining inputs (in which case only the
update-invariant fields are pinned). -/
def SimRel (rest : List (ContentInput α)) (a b : ContentDoc α) : Prop :=
  eqMod a b ∨
    (a.contentHash = b.contentHash ∧ a.scrapedAt = b.scrapedAt ∧
     a.status = b.status ∧ HasWriter rest a.contentHash)

theorem SimRel.hash_eq {rest : List (ContentInput α)} {a b : ContentDoc α}
    (h : SimRel rest a b) : a.contentHash = b.contentHash :=
  h.elim (fun h => h.1) (fun h => h.1)

theorem SimRel.scrapedAt_eq {rest : List (ContentInput α)} {a b : ContentDoc α}
    (h : SimRel rest a b) : a.scrapedAt = b.scrapedAt :=
  h.elim (fun h => h.2.2.2.2.1) (fun h => h.2.1)

theorem SimRel.status_eq {rest : List (ContentInput α)} {a b : ContentDoc α}
    (h : SimRel rest a b) : a.status = b.status :=
  h.elim (fun h => h.2.2.2.2.2) (fun h => h.2.2.1)

theorem SimRel.mono {c : ContentInput α} {cs : List (ContentInput α)}
    {a b : ContentDoc α} (hne : a.contentHash ≠ inputHash c)
    (h : SimRel (c :: cs) a b) : SimRel cs a b := by
  rcases h with h | ⟨h1, h2, h3, c', hc', he⟩
  · exact Or.inl h
  · rcases List.mem_cons.mp hc' with rfl | hc'
    · exact absurd he.symm hne
    · exact Or.inr ⟨h1, h2, h3, c', hc', he⟩

theorem SimRel.of_nil {a b : ContentDoc α} (h : SimRel ([] : List (ContentInput α)) a b) :
    eqMod a b := by
  rcases h with h | ⟨_, _, _, c', hc', _⟩
  · exact h
  · cases hc'

theorem forall₂_simRel_refl (rest : List (ContentInput α)) (l : List (ContentDoc α)) :
    List.Forall₂ (SimRel rest) l l :=
  List.forall₂_same.mpr fun a _ => Or.inl (eqMod_refl a)

theorem forall₂_hashesOf {rest : List (ContentInput α)}
    {u v : List (ContentDoc α)} (h : List.Forall₂ (SimRel rest) u v) :
    hashesOf u = hashesOf v := by
  induction h with
  | nil => rfl
  | cons h1 _ ih => simp only [hashesOf, List.map_cons] at ih ⊢; rw [h1.hash_eq, ih]

theorem forall₂_simRel_weaken {c : ContentInput α} {cs : List (ContentInput α)}
    {u v : List (ContentDoc α)} (h : List.Forall₂ (SimRel (c :: cs)) u v)
    (hnot : inputHash c ∉ hashesOf v) : List.Forall₂ (SimRel cs) u v := by
  induction h with
  | nil => exact List.Forall₂.nil
  | cons h1 h2 ih =>
    rename_i a b u' v'
    have hb : b.contentHash ≠ inputHash c := by
      intro he
      exact hnot (by simp [hashesOf, he])
    refine List.Forall₂.cons (h1.mono (h1.hash_eq ▸ hb)) (ih ?_)
    intro hmem
    exact hnot (by simp [hashesOf] at hmem ⊢; exact Or.inr hmem)

/-- One replay step: updating with input `c` keeps the store related to
the first pass's final store, with `c` removed from the pending writers. -/
theorem simRel_step (now2 : Nat) (c : ContentInput α) (cs : List (ContentInput α)) :
    ∀ (u v : List (ContentDoc α)),
      List.Forall₂ (SimRel (c :: cs)) u v →
      (hashesOf v).Nodup →
      (¬HasWriter cs (inputHash c) →
        ∀ b, findDoc v (inputHash c) = some b →
          b.url = c.url ∧ b.title = c.title ∧ b.payload = c.payload) →
      List.Forall₂ (SimRel cs)
        (updateFirst (inputHash c) (applySet now2 c (inputHash c)) u) v := by
  intro u v hsim
  induction hsim with
  | nil =>
    intro _ _
    exact List.Forall₂.nil
  | cons h1 h2 ih =>
    rename_i a b u' v'
    intro hnd hfields
    have hndtail : (hashesOf v').Nodup := by
      simpa [hashesOf] using (List.nodup_cons.mp (by simpa [hashesOf] using hnd)).2
    have hbnot : b.contentHash ∉ hashesOf v' :=
      (List.nodup_cons.mp (by simpa [hashesOf] using hnd)).1
    by_cases hc : a.contentHash = inputHash c
    · rw [updateFirst, if_pos (by simp [hc])]
      have hbh : b.contentHash = inputHash c := h1.hash_eq ▸ hc
      refine List.Forall₂.cons ?_ ?_
      · by_cases hw : HasWriter cs (inputHash c)
        · exact Or.inr ⟨by rw [applySet_contentHash, hbh],
            by rw [show (applySet now2 c (inputHash c) a).scrapedAt = a.scrapedAt from rfl,
                   h1.scrapedAt_eq],
            by rw [show (applySet now2 c (inputHash c) a).status = a.status from rfl,
                   h1.status_eq],
            by rw [applySet_contentHash]; exact hw⟩
        · have hb : findDoc (b :: v') (inputHash c) = some b := by
            rw [findDoc_cons, if_pos hbh]
          obtain ⟨hu, ht, hp⟩ := hfields hw b hb
          exact Or.inl ⟨by rw [applySet_contentHash, hbh], hu.symm, ht.symm, hp.symm,
            h1.scrapedAt_eq, h1.status_eq⟩
      · exact forall₂_simRel_weaken h2 (hbh ▸ hbnot)
    · rw [updateFirst, if_neg (by simp [hc])]
      have hbne : b.contentHash ≠ inputHash c := h1.hash_eq ▸ hc
      refine List.Forall₂.cons (h1.mono hc) (ih hndtail ?_)
      intro hw b' hb'
      refine hfields hw b' ?_
      rw [findDoc_cons, if_neg hbne]
      exact hb'

theorem upsertOne_fst_of_found (now : Nat) (st : List (ContentDoc α) × UpsertCounts)
    (c : ContentInput α) (d : ContentDoc α)
    (hd : findDoc st.1 (inputHash c) = some d) :
    (upsertOne now st c).1 =
      updateFirst (inputHash c) (applySet now c (inputHash c)) st.1 := by
  unfold upsertOne
  simp only [inputHash] at hd ⊢
  simp [hd]

/-- Replaying a batch against a store that is `SimRel`-related to the
first pass's final store ends `eqMod`-equal to it. -/
theorem sim_fold (now2 : Nat) (B : List (ContentInput α)) (v : List (ContentDoc α))
    (hnd : (hashesOf v).Nodup)
    (hK : ∀ h (c₀ : ContentInput α), lastWith h B = some c₀ →
      ∀ b, findDoc v h = some b →
        b.url = c₀.url ∧ b.title = c₀.title ∧ b.payload = c₀.payload) :
    ∀ (rest : List (ContentInput α)) (u : List (ContentDoc α)) (k : UpsertCounts),
      List.Forall₂ (SimRel rest) u v →
      (∀ h, HasWriter rest h → lastWith h rest = lastWith h B) →
      (∀ c ∈ rest, inputHash c ∈ hashesOf v) →
      List.Forall₂ eqMod ((rest.foldl (upsertOne now2) (u, k)).1) v := by
  intro rest
  induction rest with
  | nil =>
    intro u k hsim _ _
    exact hsim.imp fun _ _ hr => hr.of_nil
  | cons c cs ih =>
    intro u k hsim hlast hmem
    have hhash : hashesOf u = hashesOf v := forall₂_hashesOf hsim
    have hcu : inputHash c ∈ hashesOf u :=
      hhash ▸ hmem c (List.mem_cons_self c cs)
    obtain ⟨d, hd⟩ := Option.isSome_iff_exists.mp
      ((findDoc_isSome_iff u (inputHash c)).mpr hcu)
    rw [List.foldl_cons]
    have hstep : List.Forall₂ (SimRel cs)
        (updateFirst (inputHash c) (applySet now2 c (inputHash c)) u) v := by
      refine simRel_step now2 c cs u v hsim hnd ?_
      intro hw b hb
      have hcw : HasWriter (c :: cs) (inputHash c) :=
        ⟨c, List.mem_cons_self c cs, rfl⟩
      have hlw : lastWith (inputHash c) (c :: cs) = lastWith (inputHash c) B :=
        hlast _ hcw
      rw [lastWith_cons_of_noWriter _ c cs hw, if_pos rfl] at hlw
      exact hK _ c hlw.symm b hb
    have heq : (upsertOne now2 (u, k) c) =
        ((upsertOne now2 (u, k) c).1, (upsertOne now2 (u, k) c).2) := rfl
    rw [heq, upsertOne_fst_of_found now2 (u, k) c d hd]
    refine ih _ _ hstep ?_ ?_
    · intro h hw
      have hw' : HasWriter (c :: cs) h := by
        rcases hw with ⟨c', hc', he⟩
        exact ⟨c', List.mem_cons_of_mem _ hc', he⟩
      rw [← lastWith_cons_of_writer h c cs hw]
      exact hlast h hw'
    · intro c' hc'
      exact hmem c' (List.mem_cons_of_mem _ hc')

/-- The store component of the fold does not depend on the running
counters. -/
theorem upsertOne_fst_counts (now : Nat) (s : List (ContentDoc α))
    (k k' : UpsertCounts) (c : ContentInput α) :
    (upsertOne now (s, k) c).1 = (upsertOne now (s, k') c).1 := by
  unfold upsertOne
  cases findDoc s (inputHash c) <;> simp [inputHash] <;>
    cases hfd : findDoc s (generateHash c.url c.title) <;> simp

/-- Modelled from the spec: the number of batch inputs whose target
record existed but which changed no field (`duplicates` in the spec's
words, "the records that existed but had no field change"). -/
def specUnchangedCount (now : Nat) (s : List (ContentDoc α))
    (B : List (ContentInput α)) : Nat :=
  (B.foldl
    (fun (acc : List (ContentDoc α) × Nat) c =>
      ((upsertOne now (acc.1, ⟨0, 0⟩) c).1,
       acc.2 +
         match findDoc acc.1 (inputHash c) with
         | some d => if applySet now c (inputHash c) d = d then 1 else 0
         | none => 0))
    (s, 0)).2

/-- Per-batch accounting: each operation is exactly one of an insert, a
modification, or a no-change duplicate. -/
theorem fold_counts_trichotomy (now : Nat) (B : List (ContentInput α)) :
    ∀ (s : List (ContentDoc α)) (k : UpsertCounts) (n : Nat),
      (B.foldl (upsertOne now) (s, k)).2.inserted +
        (B.foldl (upsertOne now) (s, k)).2.modified +
        (B.foldl
          (fun (acc : List (ContentDoc α) × Nat) c =>
            ((upsertOne now (acc.1, ⟨0, 0⟩) c).1,
             acc.2 +
               match findDoc acc.1 (inputHash c) with
               | some d => if applySet now c (inputHash c) d = d then 1 else 0
               | none => 0))
          (s, n)).2 =
      k.inserted + k.modified + n + B.length := by
  induction B with
  | nil => intro s k n; simp
  | cons c cs ih =>
    intro s k n
    rw [List.foldl_cons, List.foldl_cons]
    have hfst : (upsertOne now (s, k) c).1 = (upsertOne now (s, ⟨0, 0⟩) c).1 :=
      upsertOne_fst_counts now s k ⟨0, 0⟩ c
    have heta : upsertOne now (s, k) c =
        ((upsertOne now (s, k) c).1, (upsertOne now (s, k) c).2) := rfl
    rw [heta, hfst]
    rw [ih _ _ _]
    unfold upsertOne
    cases hfd : findDoc s (inputHash c) with
    | some d =>
      simp only [inputHash] at hfd ⊢
      simp only [hfd]
      by_cases hch : applySet now c (generateHash c.url c.title) d = d
      · simp [hch, hfd]; omega
      · simp [hch, hfd]; omega
    | none =>
      simp only [inputHash] at hfd ⊢
      simp only [hfd]
      simp [hfd]; omega

theorem bulkUpsert_counts (now : Nat) (s : List (ContentDoc α))
    (B : List (ContentInput α)) :
    (bulkUpsert now s B).2.inserted + (bulkUpsert now s B).2.modified +
      specUnchangedCount now s B = B.length := by
  have := fold_counts_trichotomy now B s ⟨0, 0⟩ 0
  simpa [bulkUpsert, specUnchangedCount] using this

theorem mem_updateFirst (h : String) (f : ContentDoc α → ContentDoc α) :
    ∀ (l : List (ContentDoc α)) (d : ContentDoc α), d ∈ updateFirst h f l →
      d ∈ l ∨ ∃ e ∈ l, e.contentHash = h ∧ d = f e := by
  intro l
  induction l with
  | nil => intro d hd; cases hd
  | cons x xs ih =>
    intro d hd
    by_cases hx : x.contentHash = h
    · rw [updateFirst, if_pos (by simp [hx])] at hd
      rcases List.mem_cons.mp hd with rfl | hd
      · exact Or.inr ⟨x, List.mem_cons_self x xs, hx, rfl⟩
      · exact Or.inl (List.mem_cons_of_mem _ hd)
    · rw [updateFirst, if_neg (by simp [hx])] at hd
      rcases List.mem_cons.mp hd with rfl | hd
      · exact Or.inl (List.mem_cons_self d xs)
      · rcases ih d hd with hin | ⟨e, he, hh, hf⟩
        · exact Or.inl (List.mem_cons_of_mem _ hin)
        · exact Or.inr ⟨e, List.mem_cons_of_mem _ he, hh, hf⟩

/-- Every document's `contentHash` equals `generateHash` of its own URL
and title. -/
def HashOk (l : List (ContentDoc α)) : Prop :=
  ∀ d ∈ l, d.contentHash = generateHash d.url d.title

theorem hashOk_upsertOne (now : Nat) (st : List (ContentDoc α) × UpsertCounts)
    (c : ContentInput α) (hok : HashOk st.1) : HashOk (upsertOne now st c).1 := by
  intro d hd
  unfold upsertOne at hd
  revert hd
  cases hfd : findDoc st.1 (inputHash c) with
  | some e0 =>
    simp only [inputHash] at hfd
    simp only [hfd]
    intro hd
    rcases mem_updateFirst _ _ st.1 d hd with hin | ⟨e, _, _, hf⟩
    · exact hok d hin
    · subst hf; rfl
  | none =>
    simp only [inputHash] at hfd
    simp only [hfd]
    intro hd
    rcases List.mem_append.mp hd with hin | hx
    · exact hok d hin
    · rcases List.mem_singleton.mp hx with rfl
      rfl

theorem hashOk_fold (now : Nat) (B : List (ContentInput α)) :
    ∀ (st : List (ContentDoc α) × UpsertCounts),
      HashOk st.1 → HashOk (B.foldl (upsertOne now) st).1 := by
  induction B with
  | nil => intro st hok; exact hok
  | cons c cs ih =>
    intro st hok
    exact ih _ (hashOk_upsertOne now st c hok)

end Content

/-! ## Claim theorems -/

/-- C1.  For every `ContentRecord` written through the store, its
`contentHash` equals the hex SHA-256 digest of the lowercased, trimmed
URL, followed by `"|"`, followed by the lowercased, trimmed title: if
every stored document satisfies this, so does every document after any
`bulkUpsert` (fresh and updated documents get their hash recomputed by
`generateHash` from their own `url` and `title`). -/
theorem c1_contentHash_invariant {α : Type} [DecidableEq α] (now : Nat)
    (store : List (ContentDoc α)) (B : List (ContentInput α))
    (hok : ∀ d ∈ store,
      d.contentHash = Sha256.sha256hex (jsTrim (jsToLower d.url) ++ "|" ++ jsTrim (jsToLower d.title))) :
    ∀ d ∈ (Content.bulkUpsert now store B).1,
      d.contentHash = Sha256.sha256hex (jsTrim (jsToLower d.url) ++ "|" ++ jsTrim (jsToLower d.title)) := by
  have h := Content.hashOk_fold now B (store, ⟨0, 0⟩) hok
  intro d hd
  exact h d (by simpa [Content.bulkUpsert] using hd)

/-- Witness for C1: the single document the upsert of one record into the
empty store produces. -/
theorem c1_contentHash_invariant_witness :
    (Content.freshDoc 3 (⟨"https://Ex.com/A ", "T", 0⟩ : ContentInput Nat)
        (Content.generateHash "https://Ex.com/A " "T")).contentHash =
      Sha256.sha256hex
        (jsTrim (jsToLower (Content.freshDoc 3
            (⟨"https://Ex.com/A ", "T", 0⟩ : ContentInput Nat)
            (Content.generateHash "https://Ex.com/A " "T")).url) ++ "|" ++
         jsTrim (jsToLower (Content.freshDoc 3
            (⟨"https://Ex.com/A ", "T", 0⟩ : ContentInput Nat)
            (Content.generateHash "https://Ex.com/A " "T")).title)) :=
  c1_contentHash_invariant 3 [] [⟨"https://Ex.com/A ", "T", 0⟩] (by simp)
    (Content.freshDoc 3 ⟨"https://Ex.com/A ", "T", 0⟩
      (Content.generateHash "https://Ex.com/A " "T"))
    (by simp [Content.bulkUpsert, Content.upsertOne, Content.findDoc,
      Content.inputHash])

/-- C2.  `bulkUpsert` is idempotent: replaying a batch immediately
reports `inserted = 0` and leaves every record identical except possibly
`lastUpdated`; and the reported `total − inserted − modified` equals the
number of batch records that existed but had no field change.  The store
hypothesis is the unique-index invariant (no two records share a content
hash). -/
theorem c2_bulkUpsert_idempotent {α : Type} [DecidableEq α] (now1 now2 : Nat)
    (s0 : List (ContentDoc α)) (B : List (ContentInput α))
    (hnd : (Content.hashesOf s0).Nodup) :
    (Content.bulkUpsert now2 (Content.bulkUpsert now1 s0 B).1 B).2.inserted = 0 ∧
    List.Forall₂ Content.eqMod
      (Content.bulkUpsert now2 (Content.bulkUpsert now1 s0 B).1 B).1
      (Content.bulkUpsert now1 s0 B).1 ∧
    (Content.bulkUpsert now2 (Content.bulkUpsert now1 s0 B).1 B).2.total -
        (Content.bulkUpsert now2 (Content.bulkUpsert now1 s0 B).1 B).2.inserted -
        (Content.bulkUpsert now2 (Content.bulkUpsert now1 s0 B).1 B).2.modified =
      Content.specUnchangedCount now2 (Content.bulkUpsert now1 s0 B).1 B ∧
    (Content.bulkUpsert now2 (Content.bulkUpsert now1 s0 B).1 B).2.inserted +
        (Content.bulkUpsert now2 (Content.bulkUpsert now1 s0 B).1 B).2.modified ≤
      (Content.bulkUpsert now2 (Content.bulkUpsert now1 s0 B).1 B).2.total := by
  set s1 := (Content.bulkUpsert now1 s0 B).1 with hs1
  have hs1f : s1 = (B.foldl (Content.upsertOne now1) (s0, ⟨0, 0⟩)).1 := by
    rw [hs1]; rfl
  have hmemB : ∀ c ∈ B, Content.inputHash c ∈ Content.hashesOf s1 := by
    intro c hc
    rw [hs1f]
    exact Content.batch_mem_hashesOf_fold now1 B (s0, ⟨0, 0⟩) c hc
  have hnd1 : (Content.hashesOf s1).Nodup := by
    rw [hs1f]
    exact Content.nodup_hashesOf_fold now1 B (s0, ⟨0, 0⟩) hnd
  refine ⟨?_, ?_, ?_, ?_⟩
  · show (B.foldl (Content.upsertOne now2) (s1, ⟨0, 0⟩)).2.inserted = 0
    exact Content.inserted_fold_of_present now2 B (s1, ⟨0, 0⟩) hmemB
  · show List.Forall₂ Content.eqMod (B.foldl (Content.upsertOne now2) (s1, ⟨0, 0⟩)).1 s1
    refine Content.sim_fold now2 B s1 hnd1 ?_ B s1 ⟨0, 0⟩
      (Content.forall₂_simRel_refl B s1) (fun _ _ => rfl) hmemB
    intro h c₀ hlw b hb
    obtain ⟨scr, stt, hfd⟩ :=
      Content.findDoc_fold_lastWith now1 B (s0, ⟨0, 0⟩) h c₀ hlw
    rw [hs1f, hfd] at hb
    injection hb with hb
    subst hb
    exact ⟨rfl, rfl, rfl⟩
  · have := Content.bulkUpsert_counts now2 s1 B
    have htot : (Content.bulkUpsert now2 s1 B).2.total = B.length := rfl
    omega
  · have := Content.bulkUpsert_counts now2 s1 B
    have htot : (Content.bulkUpsert now2 s1 B).2.total = B.length := rfl
    omega

/-- Witness for C2 at a concrete store and batch. -/
theorem c2_bulkUpsert_idempotent_witness :
    (Content.bulkUpsert 7 (Content.bulkUpsert 5 ([] : List (ContentDoc Nat))
        [⟨"u", "t", 0⟩]).1 [⟨"u", "t", 0⟩]).2.inserted = 0 ∧
    List.Forall₂ Content.eqMod
      (Content.bulkUpsert 7 (Content.bulkUpsert 5 ([] : List (ContentDoc Nat))
        [⟨"u", "t", 0⟩]).1 [⟨"u", "t", 0⟩]).1
      (Content.bulkUpsert 5 ([] : List (ContentDoc Nat)) [⟨"u", "t", 0⟩]).1 ∧
    (Content.bulkUpsert 7 (Content.bulkUpsert 5 ([] : List (ContentDoc Nat))
        [⟨"u", "t", 0⟩]).1 [⟨"u", "t", 0⟩]).2.total -
        (Content.bulkUpsert 7 (Content.bulkUpsert 5 ([] : List (ContentDoc Nat))
          [⟨"u", "t", 0⟩]).1 [⟨"u", "t", 0⟩]).2.inserted -
        (Content.bulkUpsert 7 (Content.bulkUpsert 5 ([] : List (ContentDoc Nat))
          [⟨"u", "t", 0⟩]).1 [⟨"u", "t", 0⟩]).2.modified =
      Content.specUnchangedCount 7
        (Content.bulkUpsert 5 ([] : List (ContentDoc Nat)) [⟨"u", "t", 0⟩]).1
        [⟨"u", "t", 0⟩] ∧
    (Content.bulkUpsert 7 (Content.bulkUpsert 5 ([] : List (ContentDoc Nat))
        [⟨"u", "t", 0⟩]).1 [⟨"u", "t", 0⟩]).2.inserted +
        (Content.bulkUpsert 7 (Content.bulkUpsert 5 ([] : List (ContentDoc Nat))
          [⟨"u", "t", 0⟩]).1 [⟨"u", "t", 0⟩]).2.modified ≤
      (Content.bulkUpsert 7 (Content.bulkUpsert 5 ([] : List (ContentDoc Nat))
        [⟨"u", "t", 0⟩]).1 [⟨"u", "t", 0⟩]).2.total :=
  c2_bulkUpsert_idempotent 5 7 [] [⟨"u", "t", 0⟩] (by simp [Content.hashesOf])

/-- C3, counterexample.  The claim says a second terminal transition
is ignored (first wins, stored `status`/`endedAt`/`duration` unchanged).
In the code `complete`, `fail` and `cancel` carry no status guard: at the
concrete log completed at `t = 200`, a `cancel` at `t = 300` changes the
status, the end time and the duration. -/
theorem c3_first_terminal_wins_counterexample :
    (ScrapingLog.complete {} 200 (ScrapingLog.startSession 100)).status = .completed ∧
    ¬((ScrapingLog.cancel 300
          (ScrapingLog.complete {} 200 (ScrapingLog.startSession 100))).status =
        (ScrapingLog.complete {} 200 (ScrapingLog.startSession 100)).status ∧
      (ScrapingLog.cancel 300
          (ScrapingLog.complete {} 200 (ScrapingLog.startSession 100))).endedAt =
        (ScrapingLog.complete {} 200 (ScrapingLog.startSession 100)).endedAt ∧
      (ScrapingLog.cancel 300
          (ScrapingLog.complete {} 200 (ScrapingLog.startSession 100))).duration =
        (ScrapingLog.complete {} 200 (ScrapingLog.startSession 100)).duration) := by
  decide

/-- C3, amended.  Terminal transitions are not guarded: whatever the
current status (including terminal ones), `complete`, `fail` and `cancel`
unconditionally overwrite `status`, `endedAt` and `duration` — the last
terminal transition wins. -/
theorem c3_terminal_transitions_overwrite (log : RunLogDoc) (now : Nat)
    (args : ScrapingLog.CompleteArgs) (en em : String) :
    (ScrapingLog.complete args now log).status = .completed ∧
    (ScrapingLog.complete args now log).endedAt = some now ∧
    (ScrapingLog.complete args now log).duration = (now : Int) - (log.startedAt : Int) ∧
    (ScrapingLog.fail en em now log).status = .failed ∧
    (ScrapingLog.fail en em now log).endedAt = some now ∧
    (ScrapingLog.fail en em now log).duration = (now : Int) - (log.startedAt : Int) ∧
    (ScrapingLog.cancel now log).status = .cancelled ∧
    (ScrapingLog.cancel now log).endedAt = some now ∧
    (ScrapingLog.cancel now log).duration = (now : Int) - (log.startedAt : Int) :=
  ⟨rfl, rfl, rfl, rfl, rfl, rfl, rfl, rfl, rfl⟩

/-- C8.  `cleanup(maxAgeDays)` deletes exactly the records with
`scrapedAt` older than `now − maxAgeDays` days whose status is not
`flagged`: the survivors are precisely the non-matching records, the
deleted count complements the survivors, and a `flagged` record survives
regardless of age. -/
theorem c8_cleanup_deletes_exactly {α : Type} (now maxAgeDays : Nat)
    (store : List (ContentDoc α)) :
    (∀ d, d ∈ (Content.cleanup now maxAgeDays store).1 ↔
      d ∈ store ∧
        ¬(d.scrapedAt < now - maxAgeDays * Content.msPerDay ∧ d.status ≠ .flagged)) ∧
    (Content.cleanup now maxAgeDays store).2 +
        (Content.cleanup now maxAgeDays store).1.length = store.length ∧
    (∀ d ∈ store, d.status = .flagged → d ∈ (Content.cleanup now maxAgeDays store).1) := by
  refine ⟨?_, ?_, ?_⟩
  · intro d
    simp only [Content.cleanup, Content.cleanupPred, List.mem_filter,
      Bool.not_eq_true', Bool.and_eq_false_iff, Bool.not_eq_false',
      decide_eq_false_iff_not, beq_iff_eq]
    constructor
    · rintro ⟨hmem, hpred⟩
      refine ⟨hmem, ?_⟩
      rintro ⟨hage, hflag⟩
      rcases hpred with h | h
      · exact h hage
      · exact hflag h
    · rintro ⟨hmem, hnot⟩
      refine ⟨hmem, ?_⟩
      by_cases hage : d.scrapedAt < now - maxAgeDays * Content.msPerDay
      · right
        by_contra hne
        exact hnot ⟨hage, hne⟩
      · exact Or.inl hage
  · simp only [Content.cleanup]
    induction store with
    | nil => rfl
    | cons d ds ih =>
      simp only [List.filter_cons, List.length_cons]
      by_cases hp : Content.cleanupPred (now - maxAgeDays * Content.msPerDay) d
      · simp [hp]
        omega
      · rw [Bool.not_eq_true] at hp
        simp [hp]
        omega
  · intro d hmem hflag
    simp only [Content.cleanup, List.mem_filter]
    refine ⟨hmem, ?_⟩
    simp [Content.cleanupPred, hflag]

/-- An old `flagged` record. -/
def c8DocFlagged : ContentDoc Nat :=
  { contentHash := "h1", url := "u1", title := "t1", payload := 0,
    scrapedAt := 0, status := .flagged, lastUpdated := 0 }

/-- An old `active` record. -/
def c8DocActive : ContentDoc Nat :=
  { contentHash := "h2", url := "u2", title := "t2", payload := 0,
    scrapedAt := 0, status := .active, lastUpdated := 0 }

/-- A two-record store: a `flagged` record far older than the cutoff and
an `active` record of the same age. -/
def c8SampleStore : List (ContentDoc Nat) := [c8DocFlagged, c8DocActive]

/-- Witness for C8 at `c8SampleStore`, instantiated at the flagged
record. -/
theorem c8_cleanup_deletes_exactly_witness :
    (c8DocFlagged ∈ (Content.cleanup 10000000000 90 c8SampleStore).1 ↔
      c8DocFlagged ∈ c8SampleStore ∧
        ¬(c8DocFlagged.scrapedAt < 10000000000 - 90 * Content.msPerDay ∧
          c8DocFlagged.status ≠ .flagged)) ∧
    (Content.cleanup 10000000000 90 c8SampleStore).2 +
        (Content.cleanup 10000000000 90 c8SampleStore).1.length =
      c8SampleStore.length ∧
    c8DocFlagged ∈ (Content.cleanup 10000000000 90 c8SampleStore).1 :=
  ⟨(c8_cleanup_deletes_exactly 10000000000 90 c8SampleStore).1 c8DocFlagged,
   (c8_cleanup_deletes_exactly 10000000000 90 c8SampleStore).2.1,
   (c8_cleanup_deletes_exactly 10000000000 90 c8SampleStore).2.2 c8DocFlagged
     (by decide) rfl⟩

/-! ## Request-engine lemmas -/

theorem mapGetD_cons (p : String × Nat) (ps : List (String × Nat)) (k : String)
    (d : Nat) : mapGetD (p :: ps) k d = if p.1 = k then p.2 else mapGetD ps k d := by
  by_cases hp : p.1 = k
  · rw [mapGetD, List.find?_cons_of_pos _ (by simp [hp]), if_pos hp]
  · rw [mapGetD, List.find?_cons_of_neg _ (by simp [hp]), if_neg hp]; rfl

theorem mapGetD_mapSet_self (m : List (String × Nat)) (k : String) (v d : Nat) :
    mapGetD (mapSet m k v) k d = v := by
  rw [mapSet]
  by_cases hk : m.any (fun p => p.1 == k)
  · rw [if_pos hk]
    induction m with
    | nil => simp at hk
    | cons p ps ih =>
      rw [List.map_cons]
      by_cases hp : p.1 = k
      · rw [if_pos (by simp [hp]), mapGetD_cons, if_pos rfl]
      · rw [if_neg (by simp [hp]), mapGetD_cons, if_neg hp]
        apply ih
        rw [List.any_cons] at hk
        rcases Bool.or_eq_true_iff.mp hk with h | h
        · exact absurd (by simpa using h) hp
        · exact h
  · rw [if_neg hk]
    induction m with
    | nil => rw [List.nil_append, mapGetD_cons, if_pos rfl]
    | cons p ps ih =>
      rw [List.any_cons] at hk
      have hp : ¬p.1 = k := by
        intro hp
        exact hk (Bool.or_eq_true_iff.mpr (Or.inl (by simp [hp])))
      have hps : ¬ps.any (fun p => p.1 == k) = true := by
        intro hps
        exact hk (Bool.or_eq_true_iff.mpr (Or.inr hps))
      rw [List.cons_append, mapGetD_cons, if_neg hp]
      exact ih hps

/-- A standard initial scraper state: empty maps and sets, a fresh
running log. -/
def req0 : ReqState :=
  { retryAttempts := [], processedUrls := [], failedUrls := [],
    log := ScrapingLog.startSession 0, sleeps := [] }

namespace BaseScraper

/-- With the default retry budget of 3, a fresh URL whose every attempt
fails runs the loop exactly three times: three attempt-count increments,
three appended error entries carrying `retryCount` 1, 2, 3, two backoff
sleeps, and the final `ScrapingError`. -/
theorem request3_all_failures (url : String) (ename emsg : Nat → String)
    (outcome : Nat → FetchOutcome) (jitter : Nat → Nat) (now : Nat) (st : ReqState)
    (hfresh : mapGetD st.retryAttempts url 0 = 0)
    (hout : ∀ i, i < 3 → outcome i = .failure (ename i) (emsg i))
    (hen : ∀ i, i < 3 → ename i ≠ "") :
    request url 3 true outcome jitter now st =
      (.fetchFailed url (emsg 2) 3,
       { retryAttempts := mapSet (mapSet (mapSet st.retryAttempts url 1) url 2) url 3,
         processedUrls := st.processedUrls,
         failedUrls := addToSet st.failedUrls url,
         log := { st.log with errorLogs := st.log.errorLogs ++
           [⟨now, ename 0, emsg 0, some url, 1⟩,
            ⟨now, ename 1, emsg 1, some url, 2⟩,
            ⟨now, ename 2, emsg 2, some url, 3⟩] },
         sleeps := st.sleeps ++ [backoffMs 1 (jitter 1), backoffMs 2 (jitter 2)] }) := by
  have he0 : (if ename 0 = "" then "RequestError" else ename 0) = ename 0 :=
    if_neg (hen 0 (by norm_num))
  have he1 : (if ename 1 = "" then "RequestError" else ename 1) = ename 1 :=
    if_neg (hen 1 (by norm_num))
  have he2 : (if ename 2 = "" then "RequestError" else ename 2) = ename 2 :=
    if_neg (hen 2 (by norm_num))
  unfold request
  rw [hfresh]
  norm_num [requestGo, hout 0 (by norm_num), hout 1 (by norm_num),
    hout 2 (by norm_num), he0, he1, he2, ScrapingLog.addError]

/-- One pass of the loop when robots denies the URL: the warning, the
attempt-count increment, the failed-URL mark, and the immediate rethrow. -/
theorem request_robots_denied (url : String) (maxRetries : Nat)
    (outcome : Nat → FetchOutcome) (jitter : Nat → Nat) (now : Nat) (st : ReqState)
    (hlt : mapGetD st.retryAttempts url 0 < maxRetries) :
    request url maxRetries false outcome jitter now st =
      (.robotsDisallowed url,
       { st with
           log := ScrapingLog.addWarning
             ⟨now, "Robots blocked URL (skipped)", some url⟩ st.log,
           retryAttempts := mapSet st.retryAttempts url
             (mapGetD st.retryAttempts url 0 + 1),
           failedUrls := addToSet st.failedUrls url }) := by
  unfold request
  obtain ⟨f, hf⟩ : ∃ f, maxRetries - mapGetD st.retryAttempts url 0 = f + 1 :=
    ⟨maxRetries - mapGetD st.retryAttempts url 0 - 1, by omega⟩
  rw [hf]
  simp [requestGo]

end BaseScraper

/-- C4, counterexample.  At a fresh URL denied by robots, `request`
does fail immediately with the robots error, appends the warning, records
no error entry and no backoff sleep — but the catch block has already
incremented the per-URL attempt counter, so a retry attempt *is* consumed
(`retryAttempts[url]` goes from 0 to 1), refuting the last conjunct of
the claim. -/
theorem c4_robots_attempt_consumed_counterexample :
    (BaseScraper.request "https://ex.com/p" 3 false
        (fun _ => .failure "E" "boom") (fun _ => 0) 50 req0).1 =
      .robotsDisallowed "https://ex.com/p" ∧
    (BaseScraper.request "https://ex.com/p" 3 false
        (fun _ => .failure "E" "boom") (fun _ => 0) 50 req0).2.log.warnings.length = 1 ∧
    (BaseScraper.request "https://ex.com/p" 3 false
        (fun _ => .failure "E" "boom") (fun _ => 0) 50 req0).2.sleeps = [] ∧
    (BaseScraper.request "https://ex.com/p" 3 false
        (fun _ => .failure "E" "boom") (fun _ => 0) 50 req0).2.log.errorLogs = [] ∧
    ¬(mapGetD (BaseScraper.request "https://ex.com/p" 3 false
        (fun _ => .failure "E" "boom") (fun _ => 0) 50 req0).2.retryAttempts
        "https://ex.com/p" 0 =
      mapGetD req0.retryAttempts "https://ex.com/p" 0) := by
  decide

/-- C4, amended.  When robots disallows the URL, `request` appends a
warning to the run log and fails the URL immediately with the
robots-disallowed error: no backoff sleep, no error entry, no retry — but
the attempt counter for the URL is incremented by one (a retry attempt is
consumed by the shared catch block before the robots rethrow). -/
theorem c4_robots_disallowed_amended (url : String) (maxRetries : Nat)
    (outcome : Nat → FetchOutcome) (jitter : Nat → Nat) (now : Nat) (st : ReqState)
    (hlt : mapGetD st.retryAttempts url 0 < maxRetries) :
    (BaseScraper.request url maxRetries false outcome jitter now st).1 =
      .robotsDisallowed url ∧
    (BaseScraper.request url maxRetries false outcome jitter now st).2.log.warnings =
      st.log.warnings ++ [⟨now, "Robots blocked URL (skipped)", some url⟩] ∧
    (BaseScraper.request url maxRetries false outcome jitter now st).2.log.errorLogs =
      st.log.errorLogs ∧
    (BaseScraper.request url maxRetries false outcome jitter now st).2.sleeps =
      st.sleeps ∧
    (BaseScraper.request url maxRetries false outcome jitter now st).2.failedUrls =
      addToSet st.failedUrls url ∧
    (BaseScraper.request url maxRetries false outcome jitter now st).2.retryAttempts =
      mapSet st.retryAttempts url (mapGetD st.retryAttempts url 0 + 1) := by
  rw [BaseScraper.request_robots_denied url maxRetries outcome jitter now st hlt]
  exact ⟨rfl, rfl, rfl, rfl, rfl, rfl⟩

/-- Witness for C4's amended theorem at a concrete state. -/
theorem c4_robots_disallowed_amended_witness :
    (BaseScraper.request "https://ex.com/q" 3 false
        (fun _ => .ok "body") (fun _ => 7) 50 req0).1 =
      .robotsDisallowed "https://ex.com/q" ∧
    (BaseScraper.request "https://ex.com/q" 3 false
        (fun _ => .ok "body") (fun _ => 7) 50 req0).2.log.warnings =
      req0.log.warnings ++ [⟨50, "Robots blocked URL (skipped)", some "https://ex.com/q"⟩] ∧
    (BaseScraper.request "https://ex.com/q" 3 false
        (fun _ => .ok "body") (fun _ => 7) 50 req0).2.log.errorLogs =
      req0.log.errorLogs ∧
    (BaseScraper.request "https://ex.com/q" 3 false
        (fun _ => .ok "body") (fun _ => 7) 50 req0).2.sleeps = req0.sleeps ∧
    (BaseScraper.request "https://ex.com/q" 3 false
        (fun _ => .ok "body") (fun _ => 7) 50 req0).2.failedUrls =
      addToSet req0.failedUrls "https://ex.com/q" ∧
    (BaseScraper.request "https://ex.com/q" 3 false
        (fun _ => .ok "body") (fun _ => 7) 50 req0).2.retryAttempts =
      mapSet req0.retryAttempts "https://ex.com/q"
        (mapGetD req0.retryAttempts "https://ex.com/q" 0 + 1) :=
  c4_robots_disallowed_amended "https://ex.com/q" 3 (fun _ => .ok "body")
    (fun _ => 7) 50 req0 (by decide)

/-- C5.  With the default retry budget (`MAX_RETRIES` unset parses to
3), a fresh URL whose every fetch fails has its attempt count incremented
on each failure (error entries carry `retryCount` 1, 2, 3 and the map
ends at 3); while attempts < 3 the loop sleeps
`min(cap, 2^attempts·1000ms + jitter)` — the code applies no cap, and the
backoff never exceeds 4500 ms, so the sleep equals the capped value for
every `cap ≥ 4500` — and retries; at 3 attempts the URL is recorded as
failed and the `ScrapingError` carries the URL, the last error's message
and the attempt count. -/
theorem c5_retry_backoff_exhaustion (cap : Nat) (url : String)
    (ename emsg : Nat → String) (outcome : Nat → FetchOutcome)
    (jitter : Nat → Nat) (now : Nat) (st : ReqState)
    (hcap : 4500 ≤ cap)
    (hfresh : mapGetD st.retryAttempts url 0 = 0)
    (hout : ∀ i, i < 3 → outcome i = .failure (ename i) (emsg i))
    (hen : ∀ i, i < 3 → ename i ≠ "")
    (hjit : ∀ i, jitter i ≤ 500) :
    maxRetriesConfig none = 3 ∧
    (BaseScraper.request url (maxRetriesConfig none) true outcome jitter now st).1 =
      .fetchFailed url (emsg 2) 3 ∧
    (BaseScraper.request url (maxRetriesConfig none) true outcome jitter now
        st).2.failedUrls = addToSet st.failedUrls url ∧
    mapGetD (BaseScraper.request url (maxRetriesConfig none) true outcome jitter now
        st).2.retryAttempts url 0 = 3 ∧
    (BaseScraper.request url (maxRetriesConfig none) true outcome jitter now
        st).2.log.errorLogs = st.log.errorLogs ++
      [⟨now, ename 0, emsg 0, some url, 1⟩,
       ⟨now, ename 1, emsg 1, some url, 2⟩,
       ⟨now, ename 2, emsg 2, some url, 3⟩] ∧
    (BaseScraper.request url (maxRetriesConfig none) true outcome jitter now
        st).2.sleeps = st.sleeps ++
      [min cap (2 ^ 1 * 1000 + jitter 1), min cap (2 ^ 2 * 1000 + jitter 2)] := by
  have h3 : maxRetriesConfig none = 3 := rfl
  rw [h3, BaseScraper.request3_all_failures url ename emsg outcome jitter now st
    hfresh hout hen]
  refine ⟨rfl, rfl, rfl, mapGetD_mapSet_self _ _ _ _, rfl, ?_⟩
  have h1 : min cap (2 ^ 1 * 1000 + jitter 1) = 2 ^ 1 * 1000 + jitter 1 :=
    Nat.min_eq_right (by have := hjit 1; omega)
  have h2 : min cap (2 ^ 2 * 1000 + jitter 2) = 2 ^ 2 * 1000 + jitter 2 :=
    Nat.min_eq_right (by have := hjit 2; omega)
  rw [h1, h2]
  rfl

/-- Witness for C5 at a concrete state and failure trace. -/
theorem c5_retry_backoff_exhaustion_witness :
    maxRetriesConfig none = 3 ∧
    (BaseScraper.request "u" (maxRetriesConfig none) true
        (fun _ => .failure "E" "boom") (fun _ => 9) 50 req0).1 =
      .fetchFailed "u" "boom" 3 ∧
    (BaseScraper.request "u" (maxRetriesConfig none) true
        (fun _ => .failure "E" "boom") (fun _ => 9) 50 req0).2.failedUrls =
      addToSet req0.failedUrls "u" ∧
    mapGetD (BaseScraper.request "u" (maxRetriesConfig none) true
        (fun _ => .failure "E" "boom") (fun _ => 9) 50 req0).2.retryAttempts "u" 0 = 3 ∧
    (BaseScraper.request "u" (maxRetriesConfig none) true
        (fun _ => .failure "E" "boom") (fun _ => 9) 50 req0).2.log.errorLogs =
      req0.log.errorLogs ++
        [⟨50, "E", "boom", some "u", 1⟩, ⟨50, "E", "boom", some "u", 2⟩,
         ⟨50, "E", "boom", some "u", 3⟩] ∧
    (BaseScraper.request "u" (maxRetriesConfig none) true
        (fun _ => .failure "E" "boom") (fun _ => 9) 50 req0).2.sleeps =
      req0.sleeps ++ [min 4500 (2 ^ 1 * 1000 + 9), min 4500 (2 ^ 2 * 1000 + 9)] :=
  c5_retry_backoff_exhaustion 4500 "u" (fun _ => "E") (fun _ => "boom")
    (fun _ => .failure "E" "boom") (fun _ => 9) 50 req0 (by decide) (by decide)
    (by intro i _; rfl) (by intro i _; exact (by decide : ("E" : String) ≠ ""))
    (by intro i; exact (by decide : (9 : Nat) ≤ 500))

/-- C6, counterexample.  `MAX_RETRIES=0` does not disable retries:
`parseInt('0', 10) || 3` is 3 (0 is falsy), so a persistently failing
fresh URL is attempted three times — the error log records three
attempts, refuting "at most one attempt". -/
theorem c6_max_retries_zero_counterexample :
    maxRetriesConfig (some "0") = 3 ∧
    ¬((BaseScraper.request "u" (maxRetriesConfig (some "0")) true
        (fun _ => .failure "E" "boom") (fun _ => 0) 5 req0).2.log.errorLogs.length ≤ 1) := by
  decide

/-- C6, amended.  Configuring `MAX_RETRIES=0` falls back to the
default of 3 (`parseInt(env) || 3` treats 0 as unset), so a failing fetch
is retried: a fresh, persistently failing URL is attempted exactly three
times before `request` reports failure. -/
theorem c6_max_retries_zero_amended (url : String) (ename emsg : Nat → String)
    (outcome : Nat → FetchOutcome) (jitter : Nat → Nat) (now : Nat) (st : ReqState)
    (hfresh : mapGetD st.retryAttempts url 0 = 0)
    (hout : ∀ i, i < 3 → outcome i = .failure (ename i) (emsg i))
    (hen : ∀ i, i < 3 → ename i ≠ "") :
    maxRetriesConfig (some "0") = 3 ∧
    (BaseScraper.request url (maxRetriesConfig (some "0")) true outcome jitter now
        st).1 = .fetchFailed url (emsg 2) 3 ∧
    (BaseScraper.request url (maxRetriesConfig (some "0")) true outcome jitter now
        st).2.log.errorLogs.length = st.log.errorLogs.length + 3 := by
  have h3 : maxRetriesConfig (some "0") = 3 := rfl
  rw [h3, BaseScraper.request3_all_failures url ename emsg outcome jitter now st
    hfresh hout hen]
  exact ⟨rfl, rfl, by simp⟩

/-- Witness for C6's amended theorem. -/
theorem c6_max_retries_zero_amended_witness :
    maxRetriesConfig (some "0") = 3 ∧
    (BaseScraper.request "u" (maxRetriesConfig (some "0")) true
        (fun _ => .failure "E" "boom") (fun _ => 0) 5 req0).1 =
      .fetchFailed "u" "boom" 3 ∧
    (BaseScraper.request "u" (maxRetriesConfig (some "0")) true
        (fun _ => .failure "E" "boom") (fun _ => 0) 5 req0).2.log.errorLogs.length =
      req0.log.errorLogs.length + 3 :=
  c6_max_retries_zero_amended "u" (fun _ => "E") (fun _ => "boom")
    (fun _ => .failure "E" "boom") (fun _ => 0) 5 req0 (by decide)
    (by intro i _; rfl) (by intro i _; exact (by decide : ("E" : String) ≠ ""))

/-! ## Robots-cache lemmas and C7 -/

theorem entriesGet_cons {β : Type} (p : String × β) (ps : List (String × β))
    (k : String) :
    entriesGet (p :: ps) k = if p.1 = k then some p.2 else entriesGet ps k := by
  by_cases hp : p.1 = k
  · rw [entriesGet, List.find?_cons_of_pos _ (by simp [hp]), if_pos hp]
  · rw [entriesGet, List.find?_cons_of_neg _ (by simp [hp]), if_neg hp]; rfl

theorem entriesGet_entriesSet_self {β : Type} (m : List (String × β)) (k : String)
    (v : β) : entriesGet (entriesSet m k v) k = some v := by
  rw [entriesSet]
  by_cases hk : m.any (fun p => p.1 == k)
  · rw [if_pos hk]
    induction m with
    | nil => simp at hk
    | cons p ps ih =>
      rw [List.map_cons]
      by_cases hp : p.1 = k
      · rw [if_pos (by simp [hp]), entriesGet_cons, if_pos rfl]
      · rw [if_neg (by simp [hp]), entriesGet_cons, if_neg hp]
        apply ih
        rw [List.any_cons] at hk
        rcases Bool.or_eq_true_iff.mp hk with h | h
        · exact absurd (by simpa using h) hp
        · exact h
  · rw [if_neg hk]
    induction m with
    | nil => rw [List.nil_append, entriesGet_cons, if_pos rfl]
    | cons p ps ih =>
      rw [List.any_cons] at hk
      have hp : ¬p.1 = k := by
        intro hp
        exact hk (Bool.or_eq_true_iff.mpr (Or.inl (by simp [hp])))
      have hps : ¬ps.any (fun p => p.1 == k) = true := by
        intro hps
        exact hk (Bool.or_eq_true_iff.mpr (Or.inr hps))
      rw [List.cons_append, entriesGet_cons, if_neg hp]
      exact ih hps

/-- C7.  When fetching robots.txt for an origin fails, the cache
stores a permissive entry (`exists = false`, no parser), increments
`fetchErrors`, and every subsequent in-TTL `isAllowed` for any URL of
that origin answers `true` (allow on error), for any parse function and
any later fetch outcome. -/
theorem c7_robots_error_allows (parse : String → String → (String → String → Bool))
    (msg : String) (u : UrlRef) (now : Nat) (st : RobotsCacheState)
    (hmiss : entriesGet st.cache u.origin = none) :
    (RobotsCache.get parse now (.err msg) u st).2.stats.fetchErrors =
      st.stats.fetchErrors + 1 ∧
    (RobotsCache.get parse now (.err msg) u st).1.found = false ∧
    (RobotsCache.get parse now (.err msg) u st).1.parserFn = none ∧
    (RobotsCache.get parse now (.err msg) u st).1.errMsg = some msg ∧
    (RobotsCache.get parse now (.err msg) u st).1.fetchedAt = now ∧
    entriesGet (RobotsCache.get parse now (.err msg) u st).2.cache u.origin =
      some (RobotsCache.get parse now (.err msg) u st).1 ∧
    (∀ (parse2 : String → String → (String → String → Bool))
       (outcome2 : RobotsFetchOutcome) (u2 : UrlRef) (ua : Option String) (now2 : Nat),
      u2.origin = u.origin → now2 - now < st.ttl →
      (RobotsCache.isAllowed parse2 now2 outcome2 u2 ua
        (RobotsCache.get parse now (.err msg) u st).2).1 = true) := by
  have hget : RobotsCache.get parse now (.err msg) u st =
      RobotsCache.getMiss parse now (.err msg) u st := by
    rw [RobotsCache.get, hmiss]
  rw [hget]
  unfold RobotsCache.getMiss RobotsCache.fetchEntry
  dsimp only
  split_ifs with hev <;>
    · refine ⟨rfl, rfl, rfl, rfl, rfl, entriesGet_entriesSet_self _ _ _, ?_⟩
      intro parse2 outcome2 u2 ua now2 horigin httl
      unfold RobotsCache.isAllowed RobotsCache.get
      dsimp only
      rw [horigin, entriesGet_entriesSet_self]
      dsimp only
      rw [if_pos httl]
      rfl

/-- A fresh robots cache state with the constructor defaults of
`robotsParser.js` (`ttl` 1h, `maxSize` 100). -/
def robotsSt0 : RobotsCacheState :=
  { cache := [], ttl := 3600000, maxSize := 100,
    userAgent := "WebMethodsScraper/1.0", stats := ⟨0, 0, 0, 0⟩ }

/-- A parse function that would deny everything, were it consulted. -/
def denyAllParse : String → String → (String → String → Bool) :=
  fun _ _ => fun _ _ => false

/-- Witness for C7: a failed robots fetch on a fresh cache, then an
in-TTL check of another URL of the same origin against a deny-all
parser. -/
theorem c7_robots_error_allows_witness :
    (RobotsCache.get denyAllParse 1000 (.err "ECONNREFUSED")
        ⟨"https://ex.com", "/feed"⟩ robotsSt0).2.stats.fetchErrors =
      robotsSt0.stats.fetchErrors + 1 ∧
    (RobotsCache.get denyAllParse 1000 (.err "ECONNREFUSED")
        ⟨"https://ex.com", "/feed"⟩ robotsSt0).1.found = false ∧
    (RobotsCache.get denyAllParse 1000 (.err "ECONNREFUSED")
        ⟨"https://ex.com", "/feed"⟩ robotsSt0).1.parserFn = none ∧
    (RobotsCache.get denyAllParse 1000 (.err "ECONNREFUSED")
        ⟨"https://ex.com", "/feed"⟩ robotsSt0).1.errMsg = some "ECONNREFUSED" ∧
    (RobotsCache.get denyAllParse 1000 (.err "ECONNREFUSED")
        ⟨"https://ex.com", "/feed"⟩ robotsSt0).1.fetchedAt = 1000 ∧
    entriesGet (RobotsCache.get denyAllParse 1000 (.err "ECONNREFUSED")
        ⟨"https://ex.com", "/feed"⟩ robotsSt0).2.cache "https://ex.com" =
      some (RobotsCache.get denyAllParse 1000 (.err "ECONNREFUSED")
        ⟨"https://ex.com", "/feed"⟩ robotsSt0).1 ∧
    (RobotsCache.isAllowed denyAllParse 2000 (.err "again")
        ⟨"https://ex.com", "/other"⟩ none
        (RobotsCache.get denyAllParse 1000 (.err "ECONNREFUSED")
          ⟨"https://ex.com", "/feed"⟩ robotsSt0).2).1 = true :=
  ⟨(c7_robots_error_allows denyAllParse "ECONNREFUSED" ⟨"https://ex.com", "/feed"⟩
      1000 robotsSt0 rfl).1,
   (c7_robots_error_allows denyAllParse "ECONNREFUSED" ⟨"https://ex.com", "/feed"⟩
      1000 robotsSt0 rfl).2.1,
   (c7_robots_error_allows denyAllParse "ECONNREFUSED" ⟨"https://ex.com", "/feed"⟩
      1000 robotsSt0 rfl).2.2.1,
   (c7_robots_error_allows denyAllParse "ECONNREFUSED" ⟨"https://ex.com", "/feed"⟩
      1000 robotsSt0 rfl).2.2.2.1,
   (c7_robots_error_allows denyAllParse "ECONNREFUSED" ⟨"https://ex.com", "/feed"⟩
      1000 robotsSt0 rfl).2.2.2.2.1,
   (c7_robots_error_allows denyAllParse "ECONNREFUSED" ⟨"https://ex.com", "/feed"⟩
      1000 robotsSt0 rfl).2.2.2.2.2.1,
   (c7_robots_error_allows denyAllParse "ECONNREFUSED" ⟨"https://ex.com", "/feed"⟩
      1000 robotsSt0 rfl).2.2.2.2.2.2 denyAllParse (.err "again")
     ⟨"https://ex.com", "/other"⟩ none 2000 rfl (by decide)⟩

/-! ## Pipeline lemmas and C9, C10 -/

namespace BaseScraper

theorem addItem_irrelevant (cfg : ScrapeConfig) (sn st2 srcn : String)
    (acc : List Item) (item : Item)
    (hirr : isRelevant cfg.keywords item = false) :
    addItem cfg sn st2 srcn acc item = acc := by
  unfold addItem
  by_cases hmiss : item.title == "" || item.url == ""
  · rw [if_pos hmiss]
  · rw [if_neg hmiss, if_pos (by simp [hirr])]

theorem foldl_addItem_all_irrelevant (cfg : ScrapeConfig) (sn st2 srcn : String)
    (candidates : List Item)
    (hall : ∀ it ∈ candidates, isRelevant cfg.keywords it = false) :
    ∀ acc, candidates.foldl (addItem cfg sn st2 srcn) acc = acc := by
  induction candidates with
  | nil => intro acc; rfl
  | cons it its ih =>
    intro acc
    rw [List.foldl_cons,
      addItem_irrelevant cfg sn st2 srcn acc it (hall it (List.mem_cons_self it its))]
    exact ih (fun it' hit' => hall it' (List.mem_cons_of_mem _ hit')) acc

/-- The run-report projection of `runPipeline`: `complete` is called with
`found` = number of items surviving the filter and the save counters. -/
theorem runPipeline_results (cfg : ScrapeConfig) (sn st2 srcn : String)
    (candidates : List Item) (uP uF now : Nat)
    (store : List (ContentDoc Item)) (log : RunLogDoc) :
    (runPipeline cfg sn st2 srcn candidates uP uF now store log).2.status =
      .completed ∧
    (runPipeline cfg sn st2 srcn candidates uP uF now store log).2.results.found =
      (candidates.foldl (addItem cfg sn st2 srcn) []).length ∧
    (runPipeline cfg sn st2 srcn candidates uP uF now store log).2.results.inserted =
      (processAndSaveItems cfg now store
        (candidates.foldl (addItem cfg sn st2 srcn) [])).2.inserted ∧
    (runPipeline cfg sn st2 srcn candidates uP uF now store log).2.results.updated =
      (processAndSaveItems cfg now store
        (candidates.foldl (addItem cfg sn st2 srcn) [])).2.modified ∧
    (runPipeline cfg sn st2 srcn candidates uP uF now store log).2.results.duplicates =
      (processAndSaveItems cfg now store
          (candidates.foldl (addItem cfg sn st2 srcn) [])).2.total -
        (processAndSaveItems cfg now store
          (candidates.foldl (addItem cfg sn st2 srcn) [])).2.inserted -
        (processAndSaveItems cfg now store
          (candidates.foldl (addItem cfg sn st2 srcn) [])).2.modified ∧
    (runPipeline cfg sn st2 srcn candidates uP uF now store log).1 =
      (processAndSaveItems cfg now store
        (candidates.foldl (addItem cfg sn st2 srcn) [])).1 :=
  ⟨rfl, rfl, rfl, rfl, rfl, rfl⟩

/-- The batch handed to `bulkUpsert` is the first `maxItems` items, and
the reported counters partition it. -/
theorem processAndSaveItems_total (cfg : ScrapeConfig) (now : Nat)
    (store : List (ContentDoc Item)) (items : List Item) :
    (processAndSaveItems cfg now store items).2.total =
      min cfg.maxItems items.length ∧
    (processAndSaveItems cfg now store items).2.inserted +
        (processAndSaveItems cfg now store items).2.modified ≤
      (processAndSaveItems cfg now store items).2.total := by
  unfold processAndSaveItems
  by_cases hempty : items.isEmpty
  · rw [if_pos hempty]
    have : items = [] := List.isEmpty_iff.mp hempty
    subst this
    simp
  · rw [if_neg hempty]
    dsimp only
    constructor
    · show (Content.bulkUpsert now store ((items.take cfg.maxItems).map itemInput)).2.total = _
      show ((items.take cfg.maxItems).map itemInput).length = _
      rw [List.length_map, List.length_take]
    · have := Content.bulkUpsert_counts now store ((items.take cfg.maxItems).map itemInput)
      have htot : (Content.bulkUpsert now store
          ((items.take cfg.maxItems).map itemInput)).2.total =
        ((items.take cfg.maxItems).map itemInput).length := rfl
      omega

end BaseScraper

/-- A candidate with a title and URL but no occurrence of the default
keyword `webmethods` anywhere in its text corpus. -/
def c9Item : Item :=
  { title := "Unrelated", url := "https://ex.com/b", description := "",
    tags := [], keywords := [], source := "ex.com", sourceName := "Example",
    itype := "", scrapedBy := "" }

/-- The default config: `maxItems` 500, keywords `['webmethods']`. -/
def c9Cfg : ScrapeConfig := { maxItems := 500, keywords := ["webmethods"] }

/-- C9, counterexample.  One candidate failing the relevance filter:
the run completes with `inserted = 0`, but `found` is 0, not `> 0` —
items dropped by the filter are never pushed to `scrapedItems`, and
`complete` receives `found = scrapedItems.length`. -/
theorem c9_all_filtered_counterexample :
    (BaseScraper.runPipeline c9Cfg "newsScraper" "news" "Example" [c9Item]
        1 0 10 [] (ScrapingLog.startSession 0)).2.status = .completed ∧
    (BaseScraper.runPipeline c9Cfg "newsScraper" "news" "Example" [c9Item]
        1 0 10 [] (ScrapingLog.startSession 0)).2.results.inserted = 0 ∧
    ¬((BaseScraper.runPipeline c9Cfg "newsScraper" "news" "Example" [c9Item]
        1 0 10 [] (ScrapingLog.startSession 0)).2.results.found > 0) := by
  decide

/-- C9, amended.  If every candidate item fails the relevance filter,
the run ends with status `completed`, `results.inserted = 0` and
`results.found = 0` (filtered items are not counted in `found`), and the
store is untouched. -/
theorem c9_all_filtered_amended (cfg : ScrapeConfig) (sn st2 srcn : String)
    (candidates : List Item) (uP uF now : Nat)
    (store : List (ContentDoc Item)) (log : RunLogDoc)
    (hall : ∀ it ∈ candidates, BaseScraper.isRelevant cfg.keywords it = false) :
    (BaseScraper.runPipeline cfg sn st2 srcn candidates uP uF now store log).2.status =
      .completed ∧
    (BaseScraper.runPipeline cfg sn st2 srcn candidates uP uF now store
        log).2.results.inserted = 0 ∧
    (BaseScraper.runPipeline cfg sn st2 srcn candidates uP uF now store
        log).2.results.found = 0 ∧
    (BaseScraper.runPipeline cfg sn st2 srcn candidates uP uF now store log).1 =
      store := by
  have hempty : candidates.foldl (BaseScraper.addItem cfg sn st2 srcn) [] = [] :=
    BaseScraper.foldl_addItem_all_irrelevant cfg sn st2 srcn candidates hall []
  unfold BaseScraper.runPipeline
  rw [hempty]
  exact ⟨rfl, rfl, rfl, rfl⟩

/-- Witness for C9's amended theorem. -/
theorem c9_all_filtered_amended_witness :
    (BaseScraper.runPipeline c9Cfg "newsScraper" "news" "Example" [c9Item]
        1 0 10 [] (ScrapingLog.startSession 0)).2.status = .completed ∧
    (BaseScraper.runPipeline c9Cfg "newsScraper" "news" "Example" [c9Item]
        1 0 10 [] (ScrapingLog.startSession 0)).2.results.inserted = 0 ∧
    (BaseScraper.runPipeline c9Cfg "newsScraper" "news" "Example" [c9Item]
        1 0 10 [] (ScrapingLog.startSession 0)).2.results.found = 0 ∧
    (BaseScraper.runPipeline c9Cfg "newsScraper" "news" "Example" [c9Item]
        1 0 10 [] (ScrapingLog.startSession 0)).1 = [] :=
  c9_all_filtered_amended c9Cfg "newsScraper" "news" "Example" [c9Item] 1 0 10 []
    (ScrapingLog.startSession 0) (by intro it hit; simp at hit; subst hit; decide)

/-- C10.  Per run at most `config.maxItems` items (default 500 from
`MAX_ITEMS_PER_CATEGORY`) are passed to `bulkUpsert`: the batch actually
persisted is `items.take maxItems`, of length `≤ maxItems`, while
`results.found` still counts all surviving items, and
`inserted + updated + duplicates` partitions only the persisted batch —
so when more than `maxItems` items were scraped,
`found > inserted + updated + duplicates`. -/
theorem c10_max_items_cap (cfg : ScrapeConfig) (sn st2 srcn : String)
    (candidates : List Item) (uP uF now : Nat)
    (store : List (ContentDoc Item)) (log : RunLogDoc) :
    maxItemsConfig none = 500 ∧
    ((candidates.foldl (BaseScraper.addItem cfg sn st2 srcn) []).take
        cfg.maxItems).length ≤ cfg.maxItems ∧
    (BaseScraper.runPipeline cfg sn st2 srcn candidates uP uF now store
        log).2.results.found =
      (candidates.foldl (BaseScraper.addItem cfg sn st2 srcn) []).length ∧
    (BaseScraper.runPipeline cfg sn st2 srcn candidates uP uF now store
          log).2.results.inserted +
        (BaseScraper.runPipeline cfg sn st2 srcn candidates uP uF now store
          log).2.results.updated +
        (BaseScraper.runPipeline cfg sn st2 srcn candidates uP uF now store
          log).2.results.duplicates =
      min cfg.maxItems
        (candidates.foldl (BaseScraper.addItem cfg sn st2 srcn) []).length ∧
    ((candidates.foldl (BaseScraper.addItem cfg sn st2 srcn) []).length >
        cfg.maxItems →
      (BaseScraper.runPipeline cfg sn st2 srcn candidates uP uF now store
          log).2.results.found >
        (BaseScraper.runPipeline cfg sn st2 srcn candidates uP uF now store
            log).2.results.inserted +
          (BaseScraper.runPipeline cfg sn st2 srcn candidates uP uF now store
            log).2.results.updated +
          (BaseScraper.runPipeline cfg sn st2 srcn candidates uP uF now store
            log).2.results.duplicates) := by
  obtain ⟨hstatus, hfound, hins, hupd, hdup, hstore⟩ :=
    BaseScraper.runPipeline_results cfg sn st2 srcn candidates uP uF now store log
  obtain ⟨htot, hle⟩ := BaseScraper.processAndSaveItems_total cfg now store
    (candidates.foldl (BaseScraper.addItem cfg sn st2 srcn) [])
  refine ⟨rfl, ?_, hfound, ?_, ?_⟩
  · rw [List.length_take]
    exact Nat.min_le_left _ _
  · rw [hins, hupd, hdup]
    omega
  · intro hgt
    rw [hfound, hins, hupd, hdup]
    have hmin : min cfg.maxItems
        (candidates.foldl (BaseScraper.addItem cfg sn st2 srcn) []).length =
        cfg.maxItems := Nat.min_eq_left (Nat.le_of_lt hgt)
    omega

/-- A second relevant candidate, distinct from the first. -/
def c10ItemA : Item :=
  { title := "webMethods X", url := "https://ex.com/a", description := "",
    tags := [], keywords := [], source := "ex.com", sourceName := "Example",
    itype := "", scrapedBy := "" }

def c10ItemB : Item :=
  { title := "webMethods Y", url := "https://ex.com/b", description := "",
    tags := [], keywords := [], source := "ex.com", sourceName := "Example",
    itype := "", scrapedBy := "" }

/-- A config capped at one item per run. -/
def c10Cfg : ScrapeConfig := { maxItems := 1, keywords := ["webmethods"] }

/-- Witness for C10: two relevant items against a cap of 1. -/
theorem c10_max_items_cap_witness :
    maxItemsConfig none = 500 ∧
    (([c10ItemA, c10ItemB].foldl
        (BaseScraper.addItem c10Cfg "newsScraper" "news" "Example") []).take
        c10Cfg.maxItems).length ≤ c10Cfg.maxItems ∧
    (BaseScraper.runPipeline c10Cfg "newsScraper" "news" "Example"
        [c10ItemA, c10ItemB] 2 0 10 [] (ScrapingLog.startSession 0)).2.results.found =
      ([c10ItemA, c10ItemB].foldl
        (BaseScraper.addItem c10Cfg "newsScraper" "news" "Example") []).length ∧
    (BaseScraper.runPipeline c10Cfg "newsScraper" "news" "Example"
          [c10ItemA, c10ItemB] 2 0 10 []
          (ScrapingLog.startSession 0)).2.results.inserted +
        (BaseScraper.runPipeline c10Cfg "newsScraper" "news" "Example"
          [c10ItemA, c10ItemB] 2 0 10 []
          (ScrapingLog.startSession 0)).2.results.updated +
        (BaseScraper.runPipeline c10Cfg "newsScraper" "news" "Example"
          [c10ItemA, c10ItemB] 2 0 10 []
          (ScrapingLog.startSession 0)).2.results.duplicates =
      min c10Cfg.maxItems
        ([c10ItemA, c10ItemB].foldl
          (BaseScraper.addItem c10Cfg "newsScraper" "news" "Example") []).length ∧
    (BaseScraper.runPipeline c10Cfg "newsScraper" "news" "Example"
        [c10ItemA, c10ItemB] 2 0 10 []
        (ScrapingLog.startSession 0)).2.results.found >
      (BaseScraper.runPipeline c10Cfg "newsScraper" "news" "Example"
          [c10ItemA, c10ItemB] 2 0 10 []
          (ScrapingLog.startSession 0)).2.results.inserted +
        (BaseScraper.runPipeline c10Cfg "newsScraper" "news" "Example"
          [c10ItemA, c10ItemB] 2 0 10 []
          (ScrapingLog.startSession 0)).2.results.updated +
        (BaseScraper.runPipeline c10Cfg "newsScraper" "news" "Example"
          [c10ItemA, c10ItemB] 2 0 10 []
          (ScrapingLog.startSession 0)).2.results.duplicates :=
  ⟨(c10_max_items_cap c10Cfg "newsScraper" "news" "Example" [c10ItemA, c10ItemB]
      2 0 10 [] (ScrapingLog.startSession 0)).1,
   (c10_max_items_cap c10Cfg "newsScraper" "news" "Example" [c10ItemA, c10ItemB]
      2 0 10 [] (ScrapingLog.startSession 0)).2.1,
   (c10_max_items_cap c10Cfg "newsScraper" "news" "Example" [c10ItemA, c10ItemB]
      2 0 10 [] (ScrapingLog.startSession 0)).2.2.1,
   (c10_max_items_cap c10Cfg "newsScraper" "news" "Example" [c10ItemA, c10ItemB]
      2 0 10 [] (ScrapingLog.startSession 0)).2.2.2.1,
   (c10_max_items_cap c10Cfg "newsScraper" "news" "Example" [c10ItemA, c10ItemB]
      2 0 10 [] (ScrapingLog.startSession 0)).2.2.2.2 (by decide)⟩
